import Mathlib

/-!
Verification development for the gopyte terminal-emulator core.

The Go sources are shallowly embedded: each screen layer's mutable state is a
record, each method a pure function on it.  Go slices become `List`s, runes
become `Char`, Go `int` becomes `Int`.  Writes out of range are no-ops here
(the Go code guards every write it performs on reachable states).
-/

set_option maxRecDepth 10000

/-! ## List helpers mirroring Go slice idioms -/

/-- Models `dst := make([]T, n); copy(dst, src)`: the first `min n src.length`
elements come from `src`, the rest keep the zero value `d`. -/
def takePad (src : List α) (n : Nat) (d : α) : List α :=
  src.take n ++ List.replicate (n - src.length) d

/-- Models Go `copy(dst, src)`: overwrites the first `min` elements of `dst`
with those of `src`, keeping `dst`'s tail and length. -/
def copyInto (dst src : List α) : List α :=
  src.take dst.length ++ dst.drop src.length

/-- Replace element `i` (no-op when out of range), with an `Int` index. -/
def listSet (l : List α) (i : Int) (a : α) : List α :=
  if 0 ≤ i then l.set i.toNat a else l

/-- Apply `f` to the element at index `n` (no-op when out of range). -/
def modifyAt : List α → Nat → (α → α) → List α
  | [], _, _ => []
  | a :: l, 0, f => f a :: l
  | a :: l, n + 1, f => a :: modifyAt l n f

/-- Map with the element index, starting the count at `i`. -/
def mapIdxFrom (f : Nat → α → α) : Nat → List α → List α
  | _, [] => []
  | i, a :: l => f i a :: mapIdxFrom f (i + 1) l

def mapRowIdx (f : Nat → α → α) (l : List α) : List α :=
  mapIdxFrom f 0 l

/-- Read with an `Int` index, returning `d` out of range. -/
def getI (l : List α) (i : Int) (d : α) : α :=
  if 0 ≤ i then l.getD i.toNat d else d

/-- Read cell `(y, x)` of a grid, returning `d` out of range. -/
def getCell (g : List (List α)) (y x : Int) (d : α) : α :=
  getI (getI g y []) x d

/-- Write cell `(y, x)` of a grid (no-op when out of range). -/
def setCell (g : List (List α)) (y x : Int) (a : α) : List (List α) :=
  if 0 ≤ y ∧ 0 ≤ x then modifyAt g y.toNat (fun row => row.set x.toNat a) else g

/-- Models `copy(b[0:], b[1:])` on the outer slice of rows: every row moves up
one slot and the final slot keeps the old last row (to be overwritten). -/
def goShiftUp (g : List (List α)) : List (List α) :=
  g.drop 1 ++ (if g.isEmpty then [] else [g.getLastD []])

/-- Set every grid cell whose `(y, x)` satisfies `p` to `c`. -/
def clearCells (g : List (List Char)) (c : Char) (p : Int → Int → Bool) :
    List (List Char) :=
  mapRowIdx (fun y row => mapRowIdx (fun x ch => if p y x then c else ch) row) g

def spaceChar : Char := Char.ofNat 32

def nulChar : Char := Char.ofNat 0

/-! ## Data model: attributes, cursor, history lines -/

/-- `Attributes` from the Go source; field defaults are Go's zero values. -/
structure Attributes where
  fg : String := ""
  bg : String := ""
  bold : Bool := false
  italics : Bool := false
  underscore : Bool := false
  strikethrough : Bool := false
  reverse : Bool := false
  blink : Bool := false
deriving DecidableEq, Repr

/-- `DefaultAttributes()` from the Go source. -/
def DefaultAttributes : Attributes :=
  { fg := "default", bg := "default" }

/-- `Cursor` from the Go source; defaults are Go's zero values. -/
structure Cursor where
  x : Int := 0
  y : Int := 0
  attrs : Attributes := {}
  hidden : Bool := false
deriving DecidableEq, Repr

/-- `HistoryLine` from the Go source. -/
structure HistoryLine where
  chars : List Char
  attrs : List Attributes
deriving DecidableEq, Repr

/-- Go `fmt.Sprintf("color%d", n)` for the 256-color tags. -/
def color256ToString (n : Int) : String :=
  "color" ++ toString n

/-- One non-extended SGR parameter, as in the `switch` of
`NativeScreen.SelectGraphicRendition`. -/
def sgrOne (a : Attributes) (p : Int) : Attributes :=
  if p = 0 then DefaultAttributes
  else if p = 1 then { a with bold := true }
  else if p = 3 then { a with italics := true }
  else if p = 4 then { a with underscore := true }
  else if p = 5 then { a with blink := true }
  else if p = 7 then { a with reverse := true }
  else if p = 9 then { a with strikethrough := true }
  else if p = 22 then { a with bold := false }
  else if p = 23 then { a with italics := false }
  else if p = 24 then { a with underscore := false }
  else if p = 25 then { a with blink := false }
  else if p = 27 then { a with reverse := false }
  else if p = 29 then { a with strikethrough := false }
  else if p = 30 then { a with fg := "black" }
  else if p = 31 then { a with fg := "red" }
  else if p = 32 then { a with fg := "green" }
  else if p = 33 then { a with fg := "brown" }
  else if p = 34 then { a with fg := "blue" }
  else if p = 35 then { a with fg := "magenta" }
  else if p = 36 then { a with fg := "cyan" }
  else if p = 37 then { a with fg := "white" }
  else if p = 39 then { a with fg := "default" }
  else if p = 40 then { a with bg := "black" }
  else if p = 41 then { a with bg := "red" }
  else if p = 42 then { a with bg := "green" }
  else if p = 43 then { a with bg := "brown" }
  else if p = 44 then { a with bg := "blue" }
  else if p = 45 then { a with bg := "magenta" }
  else if p = 46 then { a with bg := "cyan" }
  else if p = 47 then { a with bg := "white" }
  else if p = 49 then { a with bg := "default" }
  else a

/-- The parameter loop of `SelectGraphicRendition`; `38;5;N` / `48;5;N`
consume two extra parameters, any other `38`/`48` prefix is skipped. -/
def sgrLoop (a : Attributes) : List Int → Attributes
  | [] => a
  | 38 :: 5 :: n :: rest => sgrLoop { a with fg := color256ToString n } rest
  | 48 :: 5 :: n :: rest => sgrLoop { a with bg := color256ToString n } rest
  | p :: rest => sgrLoop (sgrOne a p) rest

/-- Modelled from the spec: the display width of a code point, standing in for
the external `runewidth.RuneWidth` dependency (the go-runewidth library is not
part of the provided sources).  Spec §4.5: width is computed by the standard
East-Asian-Width plus emoji algorithm and lies in {0, 1, 2}.  Controls and
combining marks are width 0, East-Asian wide/fullwidth blocks and common emoji
blocks are width 2, everything else width 1. -/
def runeWidth (ch : Char) : Int :=
  let c := ch.toNat
  if c = 0 ∨ c < 32 ∨ (c ≥ 0x7F ∧ c < 0xA0) then 0
  else if (c ≥ 0x300 ∧ c ≤ 0x36F) ∨ (c ≥ 0x1AB0 ∧ c ≤ 0x1AFF) ∨
      (c ≥ 0x20D0 ∧ c ≤ 0x20FF) ∨ (c ≥ 0xFE00 ∧ c ≤ 0xFE0F) then 0
  else if (c ≥ 0x1100 ∧ c ≤ 0x115F) ∨ (c ≥ 0x2E80 ∧ c ≤ 0x303E) ∨
      (c ≥ 0x3041 ∧ c ≤ 0x33FF) ∨ (c ≥ 0x3400 ∧ c ≤ 0x4DBF) ∨
      (c ≥ 0x4E00 ∧ c ≤ 0x9FFF) ∨ (c ≥ 0xA000 ∧ c ≤ 0xA4CF) ∨
      (c ≥ 0xAC00 ∧ c ≤ 0xD7A3) ∨ (c ≥ 0xF900 ∧ c ≤ 0xFAFF) ∨
      (c ≥ 0xFE30 ∧ c ≤ 0xFE4F) ∨ (c ≥ 0xFF00 ∧ c ≤ 0xFF60) ∨
      (c ≥ 0xFFE0 ∧ c ≤ 0xFFE6) ∨ (c ≥ 0x1F300 ∧ c ≤ 0x1F64F) ∨
      (c ≥ 0x1F680 ∧ c ≤ 0x1F6FF) ∨ (c ≥ 0x1F900 ∧ c ≤ 0x1F9FF) ∨
      (c ≥ 0x20000 ∧ c ≤ 0x2FFFD) ∨ (c ≥ 0x30000 ∧ c ≤ 0x3FFFD) then 2
  else 1

/-- Default tab stops: every 8th column below `columns`. -/
def defaultTabStops (columns : Int) : List Int :=
  ((List.range columns.toNat).filter (fun i => i % 8 = 0)).map Int.ofNat

/-! ## NativeScreen: the base layer (src/unnamed/part_002) -/

structure NativeScreen where
  columns : Int
  lines : Int
  buffer : List (List Char)
  attrs : List (List Attributes)
  cursor : Cursor
  saved : Option Cursor := none
  title : String := ""
  iconName : String := ""
  autoWrap : Bool
  newlineMode : Bool
  tabStops : List Int
deriving DecidableEq, Repr

namespace NativeScreen

def NewNativeScreen (columns lines : Int) : NativeScreen :=
  { columns := columns
    lines := lines
    buffer := List.replicate lines.toNat (List.replicate columns.toNat spaceChar)
    attrs := List.replicate lines.toNat (List.replicate columns.toNat {})
    cursor := {}
    autoWrap := true
    newlineMode := true
    tabStops := defaultTabStops columns }

/-- `scrollUp`: shift rows up; last row becomes spaces with zero attributes. -/
def scrollUp (s : NativeScreen) : NativeScreen :=
  { s with
    buffer := listSet (goShiftUp s.buffer) (s.lines - 1)
      (List.replicate s.columns.toNat spaceChar)
    attrs := listSet (goShiftUp s.attrs) (s.lines - 1)
      (List.replicate s.columns.toNat ({} : Attributes)) }

/-- One iteration of `NativeScreen.Draw`: wrap (or clamp) then place.  Note
that the base layer writes only the buffer, not the attribute grid. -/
def drawStep (s : NativeScreen) (ch : Char) : NativeScreen :=
  let s :=
    if s.cursor.x ≥ s.columns then
      if s.autoWrap then
        let s := { s with cursor := { s.cursor with x := 0, y := s.cursor.y + 1 } }
        if s.cursor.y ≥ s.lines then
          { s.scrollUp with cursor := { s.cursor with y := s.lines - 1 } }
        else s
      else { s with cursor := { s.cursor with x := s.columns - 1 } }
    else s
  if s.cursor.y < s.lines ∧ s.cursor.x < s.columns then
    { s with
      buffer := setCell s.buffer s.cursor.y s.cursor.x ch
      cursor := { s.cursor with x := s.cursor.x + 1 } }
  else s

def Draw (s : NativeScreen) (text : List Char) : NativeScreen :=
  text.foldl drawStep s

def GetCursor (s : NativeScreen) : Int × Int :=
  (s.cursor.x, s.cursor.y)

end NativeScreen

/-! ## The full layered screen (WideCharScreen over AlternateScreen over
HistoryScreen over NativeScreen), with all embedded state flattened into one
record, matching Go struct embedding where every layer shares the base
fields.  Method dispatch follows Go's (non-virtual) embedding rules: e.g.
`SetMode` resolves to `AlternateScreen.SetMode`, whose internal
`switchToAlternate` call is the `AlternateScreen` one (it does not swap the
wide layer's width grids). -/

structure WideCharScreen where
  columns : Int
  lines : Int
  buffer : List (List Char)
  attrs : List (List Attributes)
  cursor : Cursor
  saved : Option Cursor
  title : String
  iconName : String
  autoWrap : Bool
  newlineMode : Bool
  tabStops : List Int
  history : List HistoryLine
  maxHistory : Int
  historyPos : Int
  savedBuffer : Option (List (List Char))
  savedAttrs : Option (List (List Attributes))
  savedCursor : Cursor
  viewingHistory : Bool
  mainBuffer : List (List Char)
  mainAttrs : List (List Attributes)
  mainCursor : Cursor
  mainTabStops : List Int
  mainHistory : List HistoryLine
  altBuffer : List (List Char)
  altAttrs : List (List Attributes)
  altCursor : Cursor
  altTabStops : List Int
  usingAlternate : Bool
  cellWidths : List (List Int)
  altCellWidths : List (List Int)
  mainCellWidths : List (List Int)
deriving DecidableEq, Repr

namespace WideCharScreen

/-- `NewWideCharScreen(columns, lines, maxHistory)`: the composed constructors
of all four layers. -/
def NewWideCharScreen (columns lines maxHistory : Int) : WideCharScreen :=
  let blankB := List.replicate lines.toNat (List.replicate columns.toNat spaceChar)
  let zeroA := List.replicate lines.toNat
    (List.replicate columns.toNat ({} : Attributes))
  let ones := List.replicate lines.toNat (List.replicate columns.toNat (1 : Int))
  { columns := columns
    lines := lines
    buffer := blankB
    attrs := zeroA
    cursor := {}
    saved := none
    title := ""
    iconName := ""
    autoWrap := true
    newlineMode := true
    tabStops := defaultTabStops columns
    history := []
    maxHistory := maxHistory
    historyPos := 0
    savedBuffer := none
    savedAttrs := none
    savedCursor := {}
    viewingHistory := false
    mainBuffer := []
    mainAttrs := []
    mainCursor := {}
    mainTabStops := []
    mainHistory := []
    altBuffer := blankB
    altAttrs := zeroA
    altCursor := {}
    altTabStops := defaultTabStops columns
    usingAlternate := false
    cellWidths := ones
    altCellWidths := ones
    mainCellWidths := ones }

/-! ### History-layer primitives (src/gopyte/history_screen.go) -/

/-- The copied snapshot of row `lineNum` taken by `addToHistory`. -/
def snapshotRow (s : WideCharScreen) (lineNum : Int) : HistoryLine :=
  { chars := takePad (getI s.buffer lineNum []) s.columns.toNat nulChar
    attrs := takePad (getI s.attrs lineNum []) s.columns.toNat {} }

/-- Append a line and evict the oldest one when the bound is exceeded
(the `PushBack` / `Remove(Front)` pair in `addToHistory`). -/
def pushHistory (maxHistory : Int) (h : List HistoryLine) (line : HistoryLine) :
    List HistoryLine :=
  let h2 := h ++ [line]
  if (h2.length : Int) > maxHistory then h2.drop 1 else h2

/-- `HistoryScreen.addToHistory`. -/
def addToHistory (s : WideCharScreen) (lineNum : Int) : WideCharScreen :=
  if 0 ≤ lineNum ∧ lineNum < s.lines then
    { s with history := pushHistory s.maxHistory s.history (snapshotRow s lineNum) }
  else s

/-- `HistoryScreen.scrollUpInternal`. -/
def scrollUpInternal (s : WideCharScreen) : WideCharScreen :=
  { s with
    buffer := listSet (goShiftUp s.buffer) (s.lines - 1)
      (List.replicate s.columns.toNat spaceChar)
    attrs := listSet (goShiftUp s.attrs) (s.lines - 1)
      (List.replicate s.columns.toNat ({} : Attributes)) }

/-- `AlternateScreen.scrollUpNoHistory` (textually identical shift). -/
def scrollUpNoHistory (s : WideCharScreen) : WideCharScreen :=
  { s with
    buffer := listSet (goShiftUp s.buffer) (s.lines - 1)
      (List.replicate s.columns.toNat spaceChar)
    attrs := listSet (goShiftUp s.attrs) (s.lines - 1)
      (List.replicate s.columns.toNat ({} : Attributes)) }

/-- `HistoryScreen.saveCurrentScreen`: deep copy of the live grid and cursor. -/
def saveCurrentScreen (s : WideCharScreen) : WideCharScreen :=
  { s with
    savedBuffer := some ((List.range s.lines.toNat).map
      (fun i => takePad (s.buffer.getD i []) s.columns.toNat nulChar))
    savedAttrs := some ((List.range s.lines.toNat).map
      (fun i => takePad (s.attrs.getD i []) s.columns.toNat {}))
    savedCursor := s.cursor }

/-- `HistoryScreen.restoreCurrentScreen`. -/
def restoreCurrentScreen (s : WideCharScreen) : WideCharScreen :=
  match s.savedBuffer with
  | some sb =>
    { s with
      buffer := sb
      attrs := s.savedAttrs.getD []
      cursor := { s.savedCursor with hidden := false }
      savedBuffer := none
      savedAttrs := none }
  | none => s

/-- `HistoryScreen.renderHistoryView`: clear the grid, fill from the tail of
history, then from the saved live snapshot; hide the cursor. -/
def renderHistoryView (s : WideCharScreen) : WideCharScreen :=
  let linesN := s.lines.toNat
  let colsN := s.columns.toNat
  let blankRowC := List.replicate colsN spaceChar
  let blankRowA := List.replicate colsN ({} : Attributes)
  let histLen : Int := s.history.length
  let startLine : Int := max 0 (histLen + s.lines - s.historyPos - s.lines)
  let histRows := (s.history.drop startLine.toNat).take linesN
  let k := histRows.length
  let savedStart : Int := if s.historyPos ≤ s.lines then s.lines - s.historyPos else 0
  let savedRowsC :=
    match s.savedBuffer with
    | some sb => if k < linesN then (sb.drop savedStart.toNat).take (linesN - k) else []
    | none => []
  let savedRowsA :=
    match s.savedAttrs with
    | some sa => if k < linesN then (sa.drop savedStart.toNat).take (linesN - k) else []
    | none => []
  let bufRows := histRows.map (fun hl => copyInto blankRowC hl.chars) ++
    savedRowsC.map (fun r => copyInto blankRowC r)
  let attRows := histRows.map (fun hl => copyInto blankRowA hl.attrs) ++
    savedRowsA.map (fun r => copyInto blankRowA r)
  { s with
    buffer := bufRows.take linesN ++ List.replicate (linesN - bufRows.length) blankRowC
    attrs := attRows.take linesN ++ List.replicate (linesN - attRows.length) blankRowA
    cursor := { s.cursor with hidden := true } }

/-- `HistoryScreen.ScrollToBottom` (no alternate-screen guard). -/
def HScrollToBottom (s : WideCharScreen) : WideCharScreen :=
  if s.viewingHistory then
    { ({ s with historyPos := 0 }).restoreCurrentScreen with viewingHistory := false }
  else s

/-- `HistoryScreen.ScrollUp` (view navigation). -/
def HScrollUp (s : WideCharScreen) (lines : Int) : WideCharScreen :=
  let s := if ¬s.viewingHistory then
      { s.saveCurrentScreen with viewingHistory := true }
    else s
  let maxScroll : Int := s.history.length - s.historyPos
  let l := if lines > maxScroll then maxScroll else lines
  if l ≤ 0 then s
  else ({ s with historyPos := s.historyPos + l }).renderHistoryView

/-- `HistoryScreen.ScrollDown` (view navigation). -/
def HScrollDown (s : WideCharScreen) (lines : Int) : WideCharScreen :=
  if ¬s.viewingHistory then s
  else
    let p := s.historyPos - lines
    if p ≤ 0 then
      { ({ s with historyPos := 0 }).restoreCurrentScreen with viewingHistory := false }
    else ({ s with historyPos := p }).renderHistoryView

/-! ### Wide-character layer (src/gopyte/wide_char_screen.go) -/

/-- The non-recursive arm of `clearCellAt`: reset the target cell to
space + default + width 1, and its continuation cell too if it was wide. -/
def clearHere (s : WideCharScreen) (y x : Int) : WideCharScreen :=
  let width := getCell s.cellWidths y x 0
  let s := { s with
    buffer := setCell s.buffer y x spaceChar
    attrs := setCell s.attrs y x DefaultAttributes
    cellWidths := setCell s.cellWidths y x 1 }
  if width = 2 ∧ x + 1 < s.columns then
    { s with
      buffer := setCell s.buffer y (x + 1) spaceChar
      attrs := setCell s.attrs y (x + 1) DefaultAttributes
      cellWidths := setCell s.cellWidths y (x + 1) 1 }
  else s

/-- `clearCellAt`, by recursion on the column: a continuation cell defers to
the start of its wide pair on the left. -/
def clearCellAtN (s : WideCharScreen) (y : Int) : Nat → WideCharScreen
  | 0 =>
    if s.lines ≤ y ∨ s.columns ≤ (0 : Int) then s
    else clearHere s y 0
  | n + 1 =>
    if s.lines ≤ y ∨ s.columns ≤ ((n : Int) + 1) then s
    else if getCell s.cellWidths y ((n : Int) + 1) 0 = 0 then clearCellAtN s y n
    else clearHere s y ((n : Int) + 1)

def clearCellAt (s : WideCharScreen) (y x : Int) : WideCharScreen :=
  clearCellAtN s y x.toNat

/-- The placement tail of `drawChar`, reached once wrapping is settled:
vacate any overlapping wide pair, write the rune with its attributes and
width, mark the continuation cell for a wide rune, and advance the cursor. -/
def drawCharPlace (s : WideCharScreen) (ch : Char) (charWidth : Int) :
    WideCharScreen :=
  if s.cursor.y < s.lines ∧ s.cursor.x < s.columns then
    let s := clearCellAt s s.cursor.y s.cursor.x
    let s := { s with
      buffer := setCell s.buffer s.cursor.y s.cursor.x ch
      attrs := setCell s.attrs s.cursor.y s.cursor.x s.cursor.attrs
      cellWidths := setCell s.cellWidths s.cursor.y s.cursor.x charWidth }
    let s :=
      if charWidth = 2 ∧ s.cursor.x + 1 < s.columns then
        { s with
          buffer := setCell s.buffer s.cursor.y (s.cursor.x + 1) nulChar
          attrs := setCell s.attrs s.cursor.y (s.cursor.x + 1) s.cursor.attrs
          cellWidths := setCell s.cellWidths s.cursor.y (s.cursor.x + 1) 0 }
      else s
    { s with cursor := { s.cursor with x := s.cursor.x + charWidth } }
  else s

/-- `WideCharScreen.drawChar`: width-aware character placement.
`handleZeroWidth` performs no state mutation in the source, so the width-0
branch is the identity; with autowrap off a character that does not fit is
dropped (the Go code returns before writing anything). -/
def drawChar (s : WideCharScreen) (ch : Char) : WideCharScreen :=
  let charWidth := runeWidth ch
  if charWidth = 0 then s
  else if s.cursor.x + charWidth > s.columns then
    if s.autoWrap then
      let s := { s with cursor := { s.cursor with x := 0, y := s.cursor.y + 1 } }
      let s :=
        if s.cursor.y ≥ s.lines then
          let s := if s.usingAlternate then s.scrollUpNoHistory
            else (s.addToHistory 0).scrollUpInternal
          { s with cursor := { s.cursor with y := s.lines - 1 } }
        else s
      drawCharPlace s ch charWidth
    else s
  else drawCharPlace s ch charWidth

/-- `AlternateScreen.ScrollToBottom`: a no-op on the alternate screen. -/
def ScrollToBottom (s : WideCharScreen) : WideCharScreen :=
  if s.usingAlternate then s else s.HScrollToBottom

/-- `AlternateScreen.ScrollUp` (view): a no-op on the alternate screen. -/
def ScrollUp (s : WideCharScreen) (lines : Int) : WideCharScreen :=
  if s.usingAlternate then s else s.HScrollUp lines

/-- `AlternateScreen.ScrollDown` (view): a no-op on the alternate screen. -/
def ScrollDown (s : WideCharScreen) (lines : Int) : WideCharScreen :=
  if s.usingAlternate then s else s.HScrollDown lines

/-- `WideCharScreen.Draw`: leave the history view when on the main screen,
then place each character with width awareness. -/
def Draw (s : WideCharScreen) (text : List Char) : WideCharScreen :=
  let s := if ¬s.usingAlternate ∧ s.viewingHistory then s.ScrollToBottom else s
  text.foldl drawChar s

/-- `AlternateScreen.Linefeed` / `HistoryScreen.Linefeed` dispatch: scroll at
the bottom row (capturing history only on the main screen), else move down;
newline mode adds a carriage return. -/
def Linefeed (s : WideCharScreen) : WideCharScreen :=
  let s :=
    if s.usingAlternate then
      if s.cursor.y = s.lines - 1 then s.scrollUpNoHistory
      else { s with cursor := { s.cursor with y := s.cursor.y + 1 } }
    else
      if s.cursor.y = s.lines - 1 then (s.addToHistory 0).scrollUpInternal
      else { s with cursor := { s.cursor with y := s.cursor.y + 1 } }
  if s.newlineMode then { s with cursor := { s.cursor with x := 0 } } else s

/-- `AlternateScreen.Index` / `HistoryScreen.Index` dispatch. -/
def Index (s : WideCharScreen) : WideCharScreen :=
  if s.usingAlternate then
    if s.cursor.y = s.lines - 1 then s.scrollUpNoHistory
    else { s with cursor := { s.cursor with y := s.cursor.y + 1 } }
  else
    if s.cursor.y = s.lines - 1 then (s.addToHistory 0).scrollUpInternal
    else { s with cursor := { s.cursor with y := s.cursor.y + 1 } }

/-- `NativeScreen.CarriageReturn`. -/
def CarriageReturn (s : WideCharScreen) : WideCharScreen :=
  { s with cursor := { s.cursor with x := 0 } }

/-- `NativeScreen.Backspace`. -/
def Backspace (s : WideCharScreen) : WideCharScreen :=
  if s.cursor.x > 0 then { s with cursor := { s.cursor with x := s.cursor.x - 1 } }
  else s

/-- `NativeScreen.CursorPosition` (1-based, clamped). -/
def CursorPosition (s : WideCharScreen) (line column : Int) : WideCharScreen :=
  let y := line - 1
  let x := column - 1
  let y := if y < 0 then 0 else if y ≥ s.lines then s.lines - 1 else y
  let x := if x < 0 then 0 else if x ≥ s.columns then s.columns - 1 else x
  { s with cursor := { s.cursor with x := x, y := y } }

/-- The skip-continuation inner loop of `WideCharScreen.CursorBack`. -/
def skipContLeft (s : WideCharScreen) (y : Int) : Nat → Nat
  | 0 => 0
  | n + 1 =>
    if getCell s.cellWidths y ((n : Int) + 1) 0 = 0 then skipContLeft s y n
    else n + 1

def cursorBackAux (s : WideCharScreen) : Nat → WideCharScreen
  | 0 => s
  | n + 1 =>
    if s.cursor.x ≤ 0 then s
    else
      let x : Int := s.cursor.x - 1
      let x : Int := (skipContLeft s s.cursor.y x.toNat : Nat)
      cursorBackAux { s with cursor := { s.cursor with x := x } } n

/-- `WideCharScreen.CursorBack`: steps over continuation cells. -/
def CursorBack (s : WideCharScreen) (count : Int) : WideCharScreen :=
  let s := cursorBackAux s count.toNat
  if s.cursor.x < 0 then { s with cursor := { s.cursor with x := 0 } } else s

def cursorForwardAux (s : WideCharScreen) : Nat → WideCharScreen
  | 0 => s
  | n + 1 =>
    if s.cursor.x ≥ s.columns - 1 then s
    else
      let step : Int :=
        if getCell s.cellWidths s.cursor.y s.cursor.x 0 = 2 then 2 else 1
      cursorForwardAux { s with cursor := { s.cursor with x := s.cursor.x + step } } n

/-- `WideCharScreen.CursorForward`: jumps by two on a wide start. -/
def CursorForward (s : WideCharScreen) (count : Int) : WideCharScreen :=
  let s := cursorForwardAux s count.toNat
  if s.cursor.x ≥ s.columns then { s with cursor := { s.cursor with x := s.columns - 1 } }
  else s

def eraseCharsAux (s : WideCharScreen) : Nat → Int → WideCharScreen
  | 0, _ => s
  | n + 1, x =>
    if x < s.columns then
      let s2 := clearCellAt s s.cursor.y x
      let x2 : Int :=
        if x < s.columns - 1 ∧ getCell s2.cellWidths s2.cursor.y (x + 1) 0 = 0 then x + 2
        else x + 1
      eraseCharsAux s2 n x2
    else s

/-- `WideCharScreen.EraseCharacters`: clears one logical position per
iteration, advancing by two across a wide pair. -/
def EraseCharacters (s : WideCharScreen) (count : Int) : WideCharScreen :=
  eraseCharsAux s count.toNat s.cursor.x

/-- `NativeScreen.EraseInLine` (writes spaces to the buffer only). -/
def EraseInLine (s : WideCharScreen) (how : Int) (priv : Bool) : WideCharScreen :=
  let _ := priv
  if how = 0 then
    { s with buffer := modifyAt s.buffer s.cursor.y.toNat (fun row =>
        mapRowIdx (fun x c =>
          if s.cursor.x ≤ (x : Int) ∧ (x : Int) < s.columns then spaceChar else c) row) }
  else if how = 1 then
    { s with buffer := modifyAt s.buffer s.cursor.y.toNat (fun row =>
        mapRowIdx (fun x c =>
          if (x : Int) ≤ s.cursor.x ∧ (x : Int) < s.columns then spaceChar else c) row) }
  else if how = 2 then
    { s with buffer := modifyAt s.buffer s.cursor.y.toNat (fun row =>
        mapRowIdx (fun x c => if (x : Int) < s.columns then spaceChar else c) row) }
  else s

/-- `NativeScreen.EraseInDisplay` (writes spaces to the buffer only). -/
def NativeEraseInDisplay (s : WideCharScreen) (how : Int) : WideCharScreen :=
  if how = 0 then
    let s := s.EraseInLine 0 false
    { s with buffer := clearCells s.buffer spaceChar (fun y x =>
        s.cursor.y + 1 ≤ y ∧ y < s.lines ∧ x < s.columns) }
  else if how = 1 then
    let s := s.EraseInLine 1 false
    { s with buffer := clearCells s.buffer spaceChar (fun y x =>
        y < s.cursor.y ∧ x < s.columns) }
  else if how = 2 ∨ how = 3 then
    { s with buffer := clearCells s.buffer spaceChar (fun y x =>
        y < s.lines ∧ x < s.columns) }
  else s

/-- `HistoryScreen.EraseInDisplay`: leave the history view, erase, and empty
the history on a full clear (`how` 2 or 3). -/
def EraseInDisplay (s : WideCharScreen) (how : Int) : WideCharScreen :=
  let s := if s.viewingHistory then s.HScrollToBottom else s
  let s := s.NativeEraseInDisplay how
  if how = 2 ∨ how = 3 then { s with history := [], historyPos := 0 } else s

/-- `WideCharScreen.GetDisplay`: per row, skip continuation cells and drop
zero code points. -/
def GetDisplay (s : WideCharScreen) : List String :=
  (List.range s.lines.toNat).map (fun y =>
    let row := s.buffer.getD y []
    let cw := s.cellWidths.getD y []
    String.mk ((List.range s.columns.toNat).filterMap (fun x =>
      if cw.getD x 0 = 0 then none
      else
        let ch := row.getD x nulChar
        if ch ≠ nulChar then some ch else none)))

def GetCursor (s : WideCharScreen) : Int × Int :=
  (s.cursor.x, s.cursor.y)

def GetHistorySize (s : WideCharScreen) : Int :=
  s.history.length

def IsViewingHistory (s : WideCharScreen) : Bool :=
  s.viewingHistory

def IsUsingAlternate (s : WideCharScreen) : Bool :=
  s.usingAlternate

/-! ### Alternate-buffer layer (src/gopyte/alternative_screen.go).
Per Go's embedding dispatch, `SetMode`/`ResetMode` call the
`AlternateScreen` switch functions, so the wide layer's width grids are
not swapped on a mode switch. -/

/-- `AlternateScreen.switchToAlternate`. -/
def switchToAlternate (s : WideCharScreen) : WideCharScreen :=
  let blankB := List.replicate s.lines.toNat (List.replicate s.columns.toNat spaceChar)
  let blankA := List.replicate s.lines.toNat
    (List.replicate s.columns.toNat DefaultAttributes)
  { s with
    mainBuffer := s.buffer
    mainAttrs := s.attrs
    mainCursor := s.cursor
    mainTabStops := s.tabStops
    mainHistory := s.history
    altBuffer := blankB
    altAttrs := blankA
    buffer := blankB
    attrs := blankA
    cursor := { x := 0, y := 0, attrs := DefaultAttributes, hidden := false }
    tabStops := s.altTabStops
    history := []
    usingAlternate := true
    viewingHistory := false
    historyPos := if s.viewingHistory then 0 else s.historyPos }

/-- `AlternateScreen.switchToMain`. -/
def switchToMain (s : WideCharScreen) : WideCharScreen :=
  if ¬s.usingAlternate then s
  else
    { s with
      altBuffer := s.buffer
      altAttrs := s.attrs
      altCursor := s.cursor
      altTabStops := s.tabStops
      buffer := s.mainBuffer
      attrs := s.mainAttrs
      cursor := s.mainCursor
      tabStops := s.mainTabStops
      history := s.mainHistory
      usingAlternate := false }

/-- One private mode in the `AlternateScreen.SetMode` loop. -/
def setModeAltStep (s : WideCharScreen) (mode : Int) : WideCharScreen :=
  if mode = 1049 ∨ mode = 1047 ∨ mode = 47 then
    if ¬s.usingAlternate then s.switchToAlternate else s
  else if mode = 1048 then
    if s.usingAlternate then { s with altCursor := s.cursor }
    else { s with mainCursor := s.cursor }
  else s

/-- One mode in the `NativeScreen.SetMode` loop. -/
def setModeBaseStep (priv : Bool) (s : WideCharScreen) (mode : Int) : WideCharScreen :=
  if priv then
    if mode = 7 then { s with autoWrap := true } else s
  else
    if mode = 20 then { s with newlineMode := true } else s

/-- `AlternateScreen.SetMode` followed by the embedded base `SetMode`. -/
def SetMode (s : WideCharScreen) (modes : List Int) (priv : Bool) : WideCharScreen :=
  let s := if priv then modes.foldl setModeAltStep s else s
  modes.foldl (setModeBaseStep priv) s

/-- One private mode in the `AlternateScreen.ResetMode` loop. -/
def resetModeAltStep (s : WideCharScreen) (mode : Int) : WideCharScreen :=
  if mode = 1049 ∨ mode = 1047 ∨ mode = 47 then
    if s.usingAlternate then s.switchToMain else s
  else if mode = 1048 then
    if s.usingAlternate then { s with cursor := s.altCursor }
    else { s with cursor := s.mainCursor }
  else s

/-- One mode in the `NativeScreen.ResetMode` loop. -/
def resetModeBaseStep (priv : Bool) (s : WideCharScreen) (mode : Int) : WideCharScreen :=
  if priv then
    if mode = 7 then { s with autoWrap := false } else s
  else
    if mode = 20 then { s with newlineMode := false } else s

/-- `AlternateScreen.ResetMode` followed by the embedded base `ResetMode`. -/
def ResetMode (s : WideCharScreen) (modes : List Int) (priv : Bool) : WideCharScreen :=
  let s := if priv then modes.foldl resetModeAltStep s else s
  modes.foldl (resetModeBaseStep priv) s

/-- `NativeScreen.SelectGraphicRendition`. -/
def SelectGraphicRendition (s : WideCharScreen) (params : List Int) : WideCharScreen :=
  if params = [] ∨ params = [0] then
    { s with cursor := { s.cursor with attrs := DefaultAttributes } }
  else
    { s with cursor := { s.cursor with attrs := sgrLoop s.cursor.attrs params } }

/-- `NativeScreen.Reset` on the shared base state. -/
def nativeReset (s : WideCharScreen) : WideCharScreen :=
  { s with
    buffer := List.replicate s.lines.toNat (List.replicate s.columns.toNat spaceChar)
    attrs := List.replicate s.lines.toNat
      (List.replicate s.columns.toNat ({} : Attributes))
    cursor := {}
    saved := none
    autoWrap := true
    newlineMode := true
    tabStops := defaultTabStops s.columns }

/-- `AlternateScreen.Reset`: exit the alternate screen, reset the base state,
clear the history layer, and reinitialize the alternate slot. -/
def Reset (s : WideCharScreen) : WideCharScreen :=
  let s := if s.usingAlternate then s.switchToMain else s
  let s := s.nativeReset
  let s := { s with
    history := []
    historyPos := 0
    viewingHistory := false
    savedBuffer := none
    savedAttrs := none }
  { s with
    altBuffer := List.replicate s.lines.toNat
      (List.replicate s.columns.toNat spaceChar)
    altAttrs := List.replicate s.lines.toNat
      (List.replicate s.columns.toNat DefaultAttributes)
    altCursor := { x := 0, y := 0, attrs := DefaultAttributes, hidden := false }
    altTabStops := defaultTabStops s.columns }

/-! ### Remaining base operations used by the claims -/

/-- `NativeScreen.Tab`. -/
def Tab (s : WideCharScreen) : WideCharScreen :=
  let cands := (List.range s.columns.toNat).filter (fun x =>
    s.cursor.x + 1 ≤ (x : Int) ∧ s.tabStops.contains (x : Int))
  match cands with
  | x :: _ => { s with cursor := { s.cursor with x := (x : Int) } }
  | [] => { s with cursor := { s.cursor with x := s.columns - 1 } }

/-- `NativeScreen.CursorUp`. -/
def CursorUp (s : WideCharScreen) (count : Int) : WideCharScreen :=
  let y := s.cursor.y - count
  { s with cursor := { s.cursor with y := if y < 0 then 0 else y } }

/-- `NativeScreen.CursorDown`. -/
def CursorDown (s : WideCharScreen) (count : Int) : WideCharScreen :=
  let y := s.cursor.y + count
  { s with cursor := { s.cursor with y := if y ≥ s.lines then s.lines - 1 else y } }

/-- `NativeScreen.scrollDown` on the shared base state: shift rows down,
first row becomes spaces with zero attributes. -/
def scrollDown (s : WideCharScreen) : WideCharScreen :=
  { s with
    buffer := List.replicate s.columns.toNat spaceChar ::
      s.buffer.take (s.lines.toNat - 1)
    attrs := List.replicate s.columns.toNat ({} : Attributes) ::
      s.attrs.take (s.lines.toNat - 1) }

/-- `NativeScreen.ReverseIndex` (whole-grid scroll down above row 0). -/
def ReverseIndex (s : WideCharScreen) : WideCharScreen :=
  let y := s.cursor.y - 1
  if y < 0 then { s.scrollDown with cursor := { s.cursor with y := 0 } }
  else { s with cursor := { s.cursor with y := y } }

/-- `NativeScreen.SaveCursor`. -/
def SaveCursor (s : WideCharScreen) : WideCharScreen :=
  { s with saved := some s.cursor }

/-- `NativeScreen.RestoreCursor`. -/
def RestoreCursor (s : WideCharScreen) : WideCharScreen :=
  match s.saved with
  | some c => { s with cursor := c }
  | none => s

/-- `NativeScreen.SetTabStop`. -/
def SetTabStop (s : WideCharScreen) : WideCharScreen :=
  if s.tabStops.contains s.cursor.x then s
  else { s with tabStops := s.cursor.x :: s.tabStops }

/-- `NativeScreen.ClearTabStop`. -/
def ClearTabStop (s : WideCharScreen) (how : Int) : WideCharScreen :=
  if how = 0 then { s with tabStops := s.tabStops.filter (fun t => t ≠ s.cursor.x) }
  else if how = 3 then { s with tabStops := [] }
  else s

/-! ### Resize (spec §4.6; `HistoryScreen.Resize` and `WideCharScreen.Resize`
are in the sources, the base resize they delegate to is not). -/

/-- Modelled from the spec: `NativeScreen.Resize` is absent from the provided
sources (only its callers `HistoryScreen.Resize` and `WideCharScreen.Resize`
appear).  Spec §4.6 steps 3, 4 and 7: truncate or right-pad each row to
`newCols` with space plus `DefaultAttributes`, truncate or extend the row
vector to `newLines` with blank rows, and clamp the cursor into the new
bounds. -/
def nativeResize (s : WideCharScreen) (newCols newLines : Int) : WideCharScreen :=
  let colsN := newCols.toNat
  let linesN := newLines.toNat
  let rows := s.buffer.map (fun r => takePad r colsN spaceChar)
  let arows := s.attrs.map (fun r => takePad r colsN DefaultAttributes)
  let rows := rows.take linesN ++
    List.replicate (linesN - rows.length) (List.replicate colsN spaceChar)
  let arows := arows.take linesN ++
    List.replicate (linesN - arows.length) (List.replicate colsN DefaultAttributes)
  let cx := if s.cursor.x < 0 then 0
    else if s.cursor.x ≥ newCols then newCols - 1 else s.cursor.x
  let cy := if s.cursor.y < 0 then 0
    else if s.cursor.y ≥ newLines then newLines - 1 else s.cursor.y
  { s with
    columns := newCols
    lines := newLines
    buffer := rows
    attrs := arows
    cursor := { s.cursor with x := cx, y := cy } }

/-- `HistoryScreen.Resize`: leave the history view, push rows cut off the
bottom into history, then delegate to the base resize. -/
def historyResize (s : WideCharScreen) (newCols newLines : Int) : WideCharScreen :=
  if newCols ≤ 0 ∨ newLines ≤ 0 then s
  else
    let s := if s.viewingHistory then s.HScrollToBottom else s
    let oldLines := s.lines
    let s :=
      if newLines < oldLines then
        (List.range (oldLines - newLines).toNat).foldl
          (fun s i => s.addToHistory (newLines + (i : Int))) s
      else s
    s.nativeResize newCols newLines

/-- `rebuildWidthGrid`: adjust a width grid to the target geometry, new cells
defaulting to width 1. -/
def rebuildWidthGrid (grid : List (List Int)) (newCols newLines : Int) :
    List (List Int) :=
  let linesN := newLines.toNat
  let colsN := newCols.toNat
  let grid := grid.take linesN ++
    List.replicate (linesN - grid.length) (List.replicate colsN (1 : Int))
  grid.map (fun row => row.take colsN ++
    List.replicate (colsN - row.length) (1 : Int))

/-- One row of the sanitize pass of `WideCharScreen.Resize`: any zero rune
becomes space + default attributes + width 1; the walk stops when the row or
the width row runs out. -/
def sanitizeRow : List Char → List Attributes → List Int →
    List Char × List Attributes × List Int
  | c :: cs, a :: al, w :: ws =>
    let r := sanitizeRow cs al ws
    if c = nulChar then (spaceChar :: r.1, DefaultAttributes :: r.2.1, 1 :: r.2.2)
    else (c :: r.1, a :: r.2.1, w :: r.2.2)
  | cs, al, ws => (cs, al, ws)

def sanitizeGrids : List (List Char) → List (List Attributes) →
    List (List Int) →
    List (List Char) × List (List Attributes) × List (List Int)
  | b :: bs, a :: al, w :: ws =>
    let row := sanitizeRow b a w
    let rest := sanitizeGrids bs al ws
    (row.1 :: rest.1, row.2.1 :: rest.2.1, row.2.2 :: rest.2.2)
  | bs, al, ws => (bs, al, ws)

/-- `WideCharScreen.Resize`: delegate down the layer chain, normalize the
active rows to the new width, rebuild both width grids, and sanitize any
lingering zero runes. -/
def Resize (s : WideCharScreen) (newCols newLines : Int) : WideCharScreen :=
  if newCols ≤ 0 ∨ newLines ≤ 0 then s
  else
    let s := s.historyResize newCols newLines
    let s := { s with columns := newCols, lines := newLines }
    let s := { s with
      buffer := s.buffer.map (fun r => takePad r newCols.toNat spaceChar)
      attrs := s.attrs.map (fun r => takePad r newCols.toNat DefaultAttributes) }
    let s := { s with
      cellWidths := rebuildWidthGrid s.cellWidths newCols newLines
      altCellWidths := rebuildWidthGrid s.altCellWidths newCols newLines }
    let s := if ¬s.usingAlternate then { s with mainCellWidths := s.cellWidths } else s
    let r := sanitizeGrids s.buffer s.attrs s.cellWidths
    { s with buffer := r.1, attrs := r.2.1, cellWidths := r.2.2 }

end WideCharScreen

/-! ## Operations of the layered screen, as a syntax for arbitrary call
sequences through the public surface. -/

inductive Op where
  | draw (text : List Char)
  | linefeed
  | index
  | reverseIndex
  | carriageReturn
  | backspace
  | tab
  | cursorUp (n : Int)
  | cursorDown (n : Int)
  | cursorForward (n : Int)
  | cursorBack (n : Int)
  | cursorPosition (line col : Int)
  | saveCursor
  | restoreCursor
  | setTabStop
  | clearTabStop (how : Int)
  | eraseCharacters (n : Int)
  | eraseInLine (how : Int)
  | eraseInDisplay (how : Int)
  | selectGraphicRendition (ps : List Int)
  | setMode (modes : List Int) (priv : Bool)
  | resetMode (modes : List Int) (priv : Bool)
  | scrollUpView (n : Int)
  | scrollDownView (n : Int)
  | scrollToBottom
  | resize (c l : Int)
  | reset
deriving DecidableEq, Repr

/-- Dispatch one public operation on the full layered screen, following Go's
method-resolution rules for the embedded structs. -/
def applyOp (s : WideCharScreen) : Op → WideCharScreen
  | .draw t => s.Draw t
  | .linefeed => s.Linefeed
  | .index => s.Index
  | .reverseIndex => s.ReverseIndex
  | .carriageReturn => s.CarriageReturn
  | .backspace => s.Backspace
  | .tab => s.Tab
  | .cursorUp n => s.CursorUp n
  | .cursorDown n => s.CursorDown n
  | .cursorForward n => s.CursorForward n
  | .cursorBack n => s.CursorBack n
  | .cursorPosition l c => s.CursorPosition l c
  | .saveCursor => s.SaveCursor
  | .restoreCursor => s.RestoreCursor
  | .setTabStop => s.SetTabStop
  | .clearTabStop how => s.ClearTabStop how
  | .eraseCharacters n => s.EraseCharacters n
  | .eraseInLine how => s.EraseInLine how false
  | .eraseInDisplay how => s.EraseInDisplay how
  | .selectGraphicRendition ps => s.SelectGraphicRendition ps
  | .setMode m p => s.SetMode m p
  | .resetMode m p => s.ResetMode m p
  | .scrollUpView n => s.ScrollUp n
  | .scrollDownView n => s.ScrollDown n
  | .scrollToBottom => s.ScrollToBottom
  | .resize c l => s.Resize c l
  | .reset => s.Reset

def applyOps (s : WideCharScreen) (ops : List Op) : WideCharScreen :=
  ops.foldl applyOp s

/-! ## Predicates used by the claims -/

/-- Every entry of a width grid is 0, 1 or 2. -/
def WOKg (g : List (List Int)) : Prop :=
  ∀ row ∈ g, ∀ v ∈ row, v = 0 ∨ v = 1 ∨ v = 2

/-- Every width entry actually stored in the main width grid is 0, 1 or 2. -/
def WidthsOK (s : WideCharScreen) : Prop :=
  WOKg s.cellWidths

/-- The operations named by claim C4 as performed while in alternate mode:
`Draw`, `Linefeed`, `Index`, and the erasure family. -/
def altWorkOp : Op → Bool
  | .draw _ => true
  | .linefeed => true
  | .index => true
  | .eraseInDisplay _ => true
  | .eraseInLine _ => true
  | .eraseCharacters _ => true
  | _ => false

/-- A grid with exactly `lines` rows of exactly `cols` cells each. -/
def GridGeom (g : List (List α)) (lines cols : Nat) : Prop :=
  g.length = lines ∧ ∀ row ∈ g, row.length = cols

/-- The cursor lies in the at-rest bounds for a `columns × lines` screen. -/
def CursorBounds (c : Cursor) (columns lines : Int) : Prop :=
  0 ≤ c.x ∧ c.x ≤ columns ∧ 0 ≤ c.y ∧ c.y ≤ lines - 1

/-- The history-related state: live history, stashed main history, and the
bound. -/
def hist3 (s : WideCharScreen) : List HistoryLine × List HistoryLine × Int :=
  (s.history, s.mainHistory, s.maxHistory)

/-- Both the live and the stashed main history respect the (nonnegative)
`maxHistory` bound. -/
def HistBound (s : WideCharScreen) : Prop :=
  (s.history.length : Int) ≤ s.maxHistory ∧
  (s.mainHistory.length : Int) ≤ s.maxHistory ∧ 0 ≤ s.maxHistory

/-- The screen-switch flags together with the stashed main-screen slot: the
state an alternate-mode operation must not disturb. -/
def altFrame (s : WideCharScreen) :
    Bool × Bool × List (List Char) × List (List Attributes) × Cursor ×
      List Int × List HistoryLine :=
  (s.usingAlternate, s.viewingHistory, s.mainBuffer, s.mainAttrs, s.mainCursor,
    s.mainTabStops, s.mainHistory)

/-- The cursor together with the grid geometry: the fields tracked by the
at-rest cursor-bound invariant. -/
def curGeom (s : WideCharScreen) : Cursor × Int × Int :=
  (s.cursor, s.columns, s.lines)

/-! ## Claim theorems -/

open WideCharScreen

/-- C1, counterexample: on a 1-column, 1-line base screen, drawing one
character leaves the reported cursor column at 1 = `columns`, which exceeds
`columns - 1`; the claimed bound fails right after a `Draw`. -/
theorem C1_counterexample :
    (NativeScreen.Draw (NativeScreen.NewNativeScreen 1 1) ['A']).GetCursor =
      (1, 0) ∧
    ¬((NativeScreen.Draw (NativeScreen.NewNativeScreen 1 1) ['A']).cursor.x ≤
      (NativeScreen.NewNativeScreen 1 1).columns - 1) := by
  decide

/-- C2, counterexample: (a) overwriting the start of a wide pair with another
wide character and then with a narrow one leaves an orphaned continuation:
`cellWidths` row `[1, 1, 0]`, so the 0 at column 2 follows a 1; (b) a
column-shrinking `Resize` truncates a wide pair, leaving width 2 in the last
column with no continuation cell. -/
theorem C2_counterexample :
    (getCell (applyOps (NewWideCharScreen 3 1 10)
        [Op.draw ['a', '世'], Op.carriageReturn, Op.draw ['世'],
         Op.carriageReturn, Op.draw ['b']]).cellWidths 0 2 9 = 0 ∧
      getCell (applyOps (NewWideCharScreen 3 1 10)
        [Op.draw ['a', '世'], Op.carriageReturn, Op.draw ['世'],
         Op.carriageReturn, Op.draw ['b']]).cellWidths 0 1 9 = 1) ∧
    (getCell (applyOps (NewWideCharScreen 4 1 10)
        [Op.draw ['a', 'b', '世'], Op.resize 3 1]).cellWidths 0 2 9 = 2 ∧
      (applyOps (NewWideCharScreen 4 1 10)
        [Op.draw ['a', 'b', '世'], Op.resize 3 1]).columns = 3) := by
  decide

/-- C6, counterexample: from a live view with one history line,
`ScrollDown(1)` is a no-op and `ScrollUp(1)` then scrolls into history, so
the visible grid changes and the screen is left viewing history — the
round-trip in this order does not return the live grid to the same state. -/
theorem C6_counterexample :
    (((applyOps (NewWideCharScreen 1 1 10)
          [Op.draw ['a'], Op.linefeed]).ScrollDown 1).ScrollUp 1).buffer ≠
      (applyOps (NewWideCharScreen 1 1 10)
          [Op.draw ['a'], Op.linefeed]).buffer ∧
    (((applyOps (NewWideCharScreen 1 1 10)
          [Op.draw ['a'], Op.linefeed]).ScrollDown 1).ScrollUp 1).viewingHistory =
      true ∧
    (applyOps (NewWideCharScreen 1 1 10)
        [Op.draw ['a'], Op.linefeed]).viewingHistory = false ∧
    (applyOps (NewWideCharScreen 1 1 10)
        [Op.draw ['a'], Op.linefeed]).GetHistorySize = 1 := by
  decide

/-- C7, counterexample: after drawing `A` in red, `EraseInDisplay(2)` blanks
the character but leaves the red attribute in place — the cell is not
`space + default attributes`. -/
theorem C7_counterexample :
    getCell (applyOps (NewWideCharScreen 1 1 10)
      [Op.selectGraphicRendition [31], Op.draw ['A'],
       Op.eraseInDisplay 2]).buffer 0 0 nulChar = spaceChar ∧
    getCell (applyOps (NewWideCharScreen 1 1 10)
      [Op.selectGraphicRendition [31], Op.draw ['A'],
       Op.eraseInDisplay 2]).attrs 0 0 {} ≠ DefaultAttributes := by
  decide

/-- C8, counterexample: on the 4×2 grid, `ab` plus the width-2 `世` fit on
row 0 exactly (2 + 2 = 4 columns), so no wrap happens: the cursor ends at
(4, 0), not (2, 1), and row 1 does not start with `世`. -/
theorem C8_counterexample :
    ((NewWideCharScreen 4 2 10).Draw ['a', 'b', '世']).GetCursor ≠ (2, 1) ∧
    getCell ((NewWideCharScreen 4 2 10).Draw ['a', 'b', '世']).buffer 1 0
      nulChar ≠ '世' := by
  decide

/-- C9, counterexample: on the wide-character layer with autowrap off, a
character drawn while the cursor sits past the right edge is discarded — the
last column keeps `b` instead of being overwritten with `c`, and the whole
state is unchanged by the extra character. -/
theorem C9_counterexample :
    getCell (applyOps (NewWideCharScreen 2 1 0)
      [Op.resetMode [7] true, Op.draw ['a', 'b', 'c']]).buffer 0 1
      nulChar = 'b' ∧
    applyOps (NewWideCharScreen 2 1 0)
        [Op.resetMode [7] true, Op.draw ['a', 'b', 'c']] =
      applyOps (NewWideCharScreen 2 1 0)
        [Op.resetMode [7] true, Op.draw ['a', 'b']] := by
  decide

/-- C8, amended: on the 4×2 wide-character grid with autowrap on, `"ab世"`
fits on row 0 without wrapping: row 0 renders as `ab世` with `世` occupying
columns 2–3 (width 2 then continuation 0), row 1 stays blank, and the cursor
ends at (4, 0). -/
theorem C8_corrected_thm :
    ((NewWideCharScreen 4 2 10).Draw ['a', 'b', '世']).GetDisplay =
      ["ab世", "    "] ∧
    ((NewWideCharScreen 4 2 10).Draw ['a', 'b', '世']).GetCursor = (4, 0) ∧
    getCell ((NewWideCharScreen 4 2 10).Draw ['a', 'b', '世']).cellWidths
      0 2 9 = 2 ∧
    getCell ((NewWideCharScreen 4 2 10).Draw ['a', 'b', '世']).cellWidths
      0 3 9 = 0 := by
  decide

/-! ## Infrastructure lemmas -/

theorem mem_modifyAt {l : List α} {n : Nat} {f : α → α} {a : α}
    (h : a ∈ modifyAt l n f) : a ∈ l ∨ ∃ b ∈ l, a = f b := by
  induction l generalizing n with
  | nil => simp [modifyAt] at h
  | cons x xs ih =>
    cases n with
    | zero =>
      rcases List.mem_cons.mp h with h | h
      · exact Or.inr ⟨x, by simp, h⟩
      · exact Or.inl (List.mem_cons_of_mem _ h)
    | succ n =>
      rcases List.mem_cons.mp h with h | h
      · exact Or.inl (h ▸ List.mem_cons_self _ _)
      · rcases ih h with h | ⟨b, hb, hab⟩
        · exact Or.inl (List.mem_cons_of_mem _ h)
        · exact Or.inr ⟨b, List.mem_cons_of_mem _ hb, hab⟩

theorem mem_of_mem_set {l : List α} {n : Nat} {b a : α}
    (h : a ∈ l.set n b) : a ∈ l ∨ a = b := by
  induction l generalizing n with
  | nil => simp [List.set] at h
  | cons x xs ih =>
    cases n with
    | zero =>
      rcases List.mem_cons.mp h with h | h
      · exact Or.inr h
      · exact Or.inl (List.mem_cons_of_mem _ h)
    | succ n =>
      rcases List.mem_cons.mp h with h | h
      · exact Or.inl (h ▸ List.mem_cons_self _ _)
      · rcases ih h with h | h
        · exact Or.inl (List.mem_cons_of_mem _ h)
        · exact Or.inr h

theorem mem_of_mem_listSet {l : List α} {i : Int} {b a : α}
    (h : a ∈ listSet l i b) : a ∈ l ∨ a = b := by
  unfold listSet at h
  split at h
  · exact mem_of_mem_set h
  · exact Or.inl h

theorem mem_of_mem_takePad {src : List α} {n : Nat} {d a : α}
    (h : a ∈ takePad src n d) : a ∈ src ∨ a = d := by
  unfold takePad at h
  rcases List.mem_append.mp h with h | h
  · exact Or.inl (List.take_subset _ _ h)
  · exact Or.inr (List.eq_of_mem_replicate h)

namespace WideCharScreen

theorem cw_scrollUpInternal (s : WideCharScreen) :
    s.scrollUpInternal.cellWidths = s.cellWidths := rfl

theorem cw_scrollUpNoHistory (s : WideCharScreen) :
    s.scrollUpNoHistory.cellWidths = s.cellWidths := rfl

theorem cw_scrollDown (s : WideCharScreen) :
    s.scrollDown.cellWidths = s.cellWidths := rfl

theorem cw_addToHistory (s : WideCharScreen) (n : Int) :
    (s.addToHistory n).cellWidths = s.cellWidths := by
  unfold addToHistory; split <;> rfl

theorem cw_saveCurrentScreen (s : WideCharScreen) :
    s.saveCurrentScreen.cellWidths = s.cellWidths := rfl

theorem cw_restoreCurrentScreen (s : WideCharScreen) :
    s.restoreCurrentScreen.cellWidths = s.cellWidths := by
  unfold restoreCurrentScreen; split <;> rfl

theorem cw_renderHistoryView (s : WideCharScreen) :
    s.renderHistoryView.cellWidths = s.cellWidths := rfl

theorem cw_HScrollToBottom (s : WideCharScreen) :
    s.HScrollToBottom.cellWidths = s.cellWidths := by
  unfold HScrollToBottom
  split
  · exact cw_restoreCurrentScreen _
  · rfl

theorem cw_ScrollToBottom (s : WideCharScreen) :
    s.ScrollToBottom.cellWidths = s.cellWidths := by
  unfold ScrollToBottom
  split
  · rfl
  · exact cw_HScrollToBottom _

theorem cw_HScrollUp (s : WideCharScreen) (n : Int) :
    (s.HScrollUp n).cellWidths = s.cellWidths := by
  simp only [HScrollUp, apply_ite WideCharScreen.cellWidths, cw_renderHistoryView,
    cw_saveCurrentScreen, ite_self]

theorem cw_HScrollDown (s : WideCharScreen) (n : Int) :
    (s.HScrollDown n).cellWidths = s.cellWidths := by
  simp only [HScrollDown, apply_ite WideCharScreen.cellWidths, cw_renderHistoryView,
    cw_restoreCurrentScreen, ite_self]

theorem cw_ScrollUp (s : WideCharScreen) (n : Int) :
    (s.ScrollUp n).cellWidths = s.cellWidths := by
  unfold ScrollUp
  split
  · rfl
  · exact cw_HScrollUp _ _

theorem cw_ScrollDown (s : WideCharScreen) (n : Int) :
    (s.ScrollDown n).cellWidths = s.cellWidths := by
  unfold ScrollDown
  split
  · rfl
  · exact cw_HScrollDown _ _

theorem cw_Linefeed (s : WideCharScreen) :
    s.Linefeed.cellWidths = s.cellWidths := by
  simp only [Linefeed, apply_ite WideCharScreen.cellWidths, cw_scrollUpNoHistory,
    cw_scrollUpInternal, cw_addToHistory, ite_self]

theorem cw_Index (s : WideCharScreen) :
    s.Index.cellWidths = s.cellWidths := by
  simp only [Index, apply_ite WideCharScreen.cellWidths, cw_scrollUpNoHistory,
    cw_scrollUpInternal, cw_addToHistory, ite_self]

theorem cw_ReverseIndex (s : WideCharScreen) :
    s.ReverseIndex.cellWidths = s.cellWidths := by
  simp only [ReverseIndex, apply_ite WideCharScreen.cellWidths, cw_scrollDown,
    ite_self]

theorem cw_Tab (s : WideCharScreen) :
    s.Tab.cellWidths = s.cellWidths := by
  simp only [Tab]
  split <;> rfl

theorem cw_CarriageReturn (s : WideCharScreen) :
    s.CarriageReturn.cellWidths = s.cellWidths := rfl

theorem cw_Backspace (s : WideCharScreen) :
    s.Backspace.cellWidths = s.cellWidths := by
  simp only [Backspace, apply_ite WideCharScreen.cellWidths, ite_self]

theorem cw_CursorUp (s : WideCharScreen) (n : Int) :
    (s.CursorUp n).cellWidths = s.cellWidths := rfl

theorem cw_CursorDown (s : WideCharScreen) (n : Int) :
    (s.CursorDown n).cellWidths = s.cellWidths := rfl

theorem cw_CursorPosition (s : WideCharScreen) (l c : Int) :
    (s.CursorPosition l c).cellWidths = s.cellWidths := rfl

theorem cw_cursorBackAux (s : WideCharScreen) (n : Nat) :
    (s.cursorBackAux n).cellWidths = s.cellWidths := by
  induction n generalizing s with
  | zero => rfl
  | succ n ih =>
    simp only [cursorBackAux]
    split
    · rfl
    · rw [ih]

theorem cw_CursorBack (s : WideCharScreen) (n : Int) :
    (s.CursorBack n).cellWidths = s.cellWidths := by
  simp only [CursorBack, apply_ite WideCharScreen.cellWidths, cw_cursorBackAux,
    ite_self]

theorem cw_cursorForwardAux (s : WideCharScreen) (n : Nat) :
    (s.cursorForwardAux n).cellWidths = s.cellWidths := by
  induction n generalizing s with
  | zero => rfl
  | succ n ih =>
    simp only [cursorForwardAux]
    split
    · rfl
    · rw [ih]

theorem cw_CursorForward (s : WideCharScreen) (n : Int) :
    (s.CursorForward n).cellWidths = s.cellWidths := by
  simp only [CursorForward, apply_ite WideCharScreen.cellWidths,
    cw_cursorForwardAux, ite_self]

theorem cw_SaveCursor (s : WideCharScreen) :
    s.SaveCursor.cellWidths = s.cellWidths := rfl

theorem cw_RestoreCursor (s : WideCharScreen) :
    s.RestoreCursor.cellWidths = s.cellWidths := by
  simp only [RestoreCursor]
  split <;> rfl

theorem cw_SetTabStop (s : WideCharScreen) :
    s.SetTabStop.cellWidths = s.cellWidths := by
  simp only [SetTabStop, apply_ite WideCharScreen.cellWidths, ite_self]

theorem cw_ClearTabStop (s : WideCharScreen) (how : Int) :
    (s.ClearTabStop how).cellWidths = s.cellWidths := by
  simp only [ClearTabStop, apply_ite WideCharScreen.cellWidths, ite_self]

theorem cw_EraseInLine (s : WideCharScreen) (how : Int) (p : Bool) :
    (s.EraseInLine how p).cellWidths = s.cellWidths := by
  simp only [EraseInLine, apply_ite WideCharScreen.cellWidths, ite_self]

theorem cw_NativeEraseInDisplay (s : WideCharScreen) (how : Int) :
    (s.NativeEraseInDisplay how).cellWidths = s.cellWidths := by
  simp only [NativeEraseInDisplay, apply_ite WideCharScreen.cellWidths,
    cw_EraseInLine, ite_self]

theorem cw_EraseInDisplay (s : WideCharScreen) (how : Int) :
    (s.EraseInDisplay how).cellWidths = s.cellWidths := by
  simp only [EraseInDisplay, apply_ite WideCharScreen.cellWidths,
    cw_NativeEraseInDisplay, cw_HScrollToBottom, ite_self]

theorem cw_SelectGraphicRendition (s : WideCharScreen) (ps : List Int) :
    (s.SelectGraphicRendition ps).cellWidths = s.cellWidths := by
  simp only [SelectGraphicRendition, apply_ite WideCharScreen.cellWidths, ite_self]

theorem cw_switchToAlternate (s : WideCharScreen) :
    s.switchToAlternate.cellWidths = s.cellWidths := rfl

theorem cw_switchToMain (s : WideCharScreen) :
    s.switchToMain.cellWidths = s.cellWidths := by
  simp only [switchToMain, apply_ite WideCharScreen.cellWidths, ite_self]

theorem cw_foldl {β : Type} {f : WideCharScreen → β → WideCharScreen}
    (hf : ∀ s b, (f s b).cellWidths = s.cellWidths) :
    ∀ (l : List β) (s : WideCharScreen), (l.foldl f s).cellWidths = s.cellWidths := by
  intro l
  induction l with
  | nil => intro s; rfl
  | cons b bs ih => intro s; rw [List.foldl_cons, ih, hf]

theorem cw_setModeAltStep (s : WideCharScreen) (m : Int) :
    (setModeAltStep s m).cellWidths = s.cellWidths := by
  simp only [setModeAltStep, apply_ite WideCharScreen.cellWidths,
    cw_switchToAlternate, ite_self]

theorem cw_setModeBaseStep (p : Bool) (s : WideCharScreen) (m : Int) :
    (setModeBaseStep p s m).cellWidths = s.cellWidths := by
  simp only [setModeBaseStep, apply_ite WideCharScreen.cellWidths, ite_self]

theorem cw_SetMode (s : WideCharScreen) (modes : List Int) (p : Bool) :
    (s.SetMode modes p).cellWidths = s.cellWidths := by
  simp only [SetMode]
  rw [cw_foldl (cw_setModeBaseStep p)]
  split
  · rw [cw_foldl cw_setModeAltStep]
  · rfl

theorem cw_resetModeAltStep (s : WideCharScreen) (m : Int) :
    (resetModeAltStep s m).cellWidths = s.cellWidths := by
  simp only [resetModeAltStep, apply_ite WideCharScreen.cellWidths,
    cw_switchToMain, ite_self]

theorem cw_resetModeBaseStep (p : Bool) (s : WideCharScreen) (m : Int) :
    (resetModeBaseStep p s m).cellWidths = s.cellWidths := by
  simp only [resetModeBaseStep, apply_ite WideCharScreen.cellWidths, ite_self]

theorem cw_ResetMode (s : WideCharScreen) (modes : List Int) (p : Bool) :
    (s.ResetMode modes p).cellWidths = s.cellWidths := by
  simp only [ResetMode]
  rw [cw_foldl (cw_resetModeBaseStep p)]
  split
  · rw [cw_foldl cw_resetModeAltStep]
  · rfl

theorem cw_nativeReset (s : WideCharScreen) :
    s.nativeReset.cellWidths = s.cellWidths := rfl

theorem cw_Reset (s : WideCharScreen) :
    s.Reset.cellWidths = s.cellWidths := by
  simp only [Reset, apply_ite WideCharScreen.cellWidths, cw_nativeReset,
    cw_switchToMain, ite_self]

theorem WOKg_setCell {g : List (List Int)} (hg : WOKg g) {y x : Int} {v : Int}
    (hv : v = 0 ∨ v = 1 ∨ v = 2) : WOKg (setCell g y x v) := by
  intro row hrow u hu
  unfold setCell at hrow
  split at hrow
  · rcases mem_modifyAt hrow with h | ⟨r, hr, hru⟩
    · exact hg row h u hu
    · subst hru
      rcases mem_of_mem_set hu with h | h
      · exact hg r hr u h
      · exact h ▸ hv
  · exact hg row hrow u hu

theorem WOKg_clearHere {s : WideCharScreen} (hs : WOKg s.cellWidths) (y x : Int) :
    WOKg (clearHere s y x).cellWidths := by
  simp only [clearHere, apply_ite WideCharScreen.cellWidths]
  split
  · exact WOKg_setCell (WOKg_setCell hs (by norm_num)) (by norm_num)
  · exact WOKg_setCell hs (by norm_num)

theorem WOKg_clearCellAtN {s : WideCharScreen} (hs : WOKg s.cellWidths)
    (y : Int) (n : Nat) : WOKg (clearCellAtN s y n).cellWidths := by
  induction n generalizing s with
  | zero =>
    unfold clearCellAtN
    split
    · exact hs
    · exact WOKg_clearHere hs _ _
  | succ n ih =>
    unfold clearCellAtN
    split
    · exact hs
    · split
      · exact ih hs
      · exact WOKg_clearHere hs _ _

theorem WOKg_clearCellAt {s : WideCharScreen} (hs : WOKg s.cellWidths)
    (y x : Int) : WOKg (clearCellAt s y x).cellWidths :=
  WOKg_clearCellAtN hs y x.toNat

theorem runeWidth_mem (ch : Char) :
    runeWidth ch = 0 ∨ runeWidth ch = 1 ∨ runeWidth ch = 2 := by
  simp only [runeWidth]
  split_ifs <;> simp

theorem WOKg_drawCharPlace {s : WideCharScreen} (hs : WOKg s.cellWidths)
    (ch : Char) {w : Int} (hw : w = 0 ∨ w = 1 ∨ w = 2) :
    WOKg (drawCharPlace s ch w).cellWidths := by
  simp only [drawCharPlace, apply_ite WideCharScreen.cellWidths]
  split
  · split
    · exact WOKg_setCell (WOKg_setCell (WOKg_clearCellAt hs _ _) hw) (by norm_num)
    · exact WOKg_setCell (WOKg_clearCellAt hs _ _) hw
  · exact hs

theorem WOKg_drawChar {s : WideCharScreen} (hs : WOKg s.cellWidths) (ch : Char) :
    WOKg (s.drawChar ch).cellWidths := by
  simp only [drawChar]
  split
  · exact hs
  · split
    · split
      · refine WOKg_drawCharPlace ?_ ch (runeWidth_mem ch)
        simp only [apply_ite WideCharScreen.cellWidths, cw_scrollUpNoHistory,
          cw_scrollUpInternal, cw_addToHistory, ite_self]
        exact hs
      · exact hs
    · exact WOKg_drawCharPlace hs ch (runeWidth_mem ch)

theorem WOKg_Draw {s : WideCharScreen} (hs : WOKg s.cellWidths)
    (text : List Char) : WOKg (s.Draw text).cellWidths := by
  unfold Draw
  have hpre : WOKg (if ¬s.usingAlternate = true ∧ s.viewingHistory = true then
      s.ScrollToBottom else s).cellWidths := by
    simp only [apply_ite WideCharScreen.cellWidths, cw_ScrollToBottom, ite_self]
    exact hs
  generalize (if ¬s.usingAlternate = true ∧ s.viewingHistory = true then
      s.ScrollToBottom else s) = t at hpre
  induction text generalizing t with
  | nil => exact hpre
  | cons c cs ih => exact ih _ (WOKg_drawChar hpre c)

theorem WOKg_eraseCharsAux {s : WideCharScreen} (hs : WOKg s.cellWidths)
    (n : Nat) (x : Int) : WOKg (eraseCharsAux s n x).cellWidths := by
  induction n generalizing s x with
  | zero => exact hs
  | succ n ih =>
    unfold eraseCharsAux
    split
    · exact ih (WOKg_clearCellAt hs _ _) _
    · exact hs

theorem WOKg_EraseCharacters {s : WideCharScreen} (hs : WOKg s.cellWidths)
    (n : Int) : WOKg (s.EraseCharacters n).cellWidths :=
  WOKg_eraseCharsAux hs n.toNat s.cursor.x

theorem WOKg_rebuildWidthGrid {g : List (List Int)} (hg : WOKg g)
    (c l : Int) : WOKg (rebuildWidthGrid g c l) := by
  intro row hrow u hu
  unfold rebuildWidthGrid at hrow
  simp only [List.mem_map] at hrow
  obtain ⟨r, hr, hru⟩ := hrow
  subst hru
  rcases List.mem_append.mp hr with h | h
  · have hrg : r ∈ g := List.take_subset _ _ h
    rcases List.mem_append.mp hu with h2 | h2
    · exact hg r hrg u (List.take_subset _ _ h2)
    · exact Or.inr (Or.inl (List.eq_of_mem_replicate h2))
  · have : r = List.replicate c.toNat (1 : Int) := List.eq_of_mem_replicate h
    subst this
    rcases List.mem_append.mp hu with h2 | h2
    · exact Or.inr (Or.inl (List.eq_of_mem_replicate (List.take_subset _ _ h2)))
    · exact Or.inr (Or.inl (List.eq_of_mem_replicate h2))

theorem sanitizeRow_w_mem {b : List Char} {a : List Attributes} {w : List Int}
    (hw : ∀ v ∈ w, v = 0 ∨ v = 1 ∨ v = 2) :
    ∀ v ∈ (sanitizeRow b a w).2.2, v = 0 ∨ v = 1 ∨ v = 2 := by
  induction b generalizing a w with
  | nil =>
    intro v hv
    unfold sanitizeRow at hv
    exact hw v hv
  | cons c cs ih =>
    intro v hv
    match a, w with
    | [], _ =>
      unfold sanitizeRow at hv
      exact hw v hv
    | _ :: _, [] =>
      unfold sanitizeRow at hv
      exact hw v hv
    | a0 :: al, w0 :: ws =>
      unfold sanitizeRow at hv
      have hws : ∀ u ∈ ws, u = 0 ∨ u = 1 ∨ u = 2 := fun u hu =>
        hw u (List.mem_cons_of_mem _ hu)
      split at hv
      · rcases List.mem_cons.mp hv with h | h
        · exact Or.inr (Or.inl h)
        · exact ih hws v h
      · rcases List.mem_cons.mp hv with h | h
        · exact hw _ (h ▸ List.mem_cons_self _ _)
        · exact ih hws v h

theorem WOKg_sanitizeGrids {b : List (List Char)} {a : List (List Attributes)}
    {w : List (List Int)} (hw : WOKg w) : WOKg (sanitizeGrids b a w).2.2 := by
  induction b generalizing a w with
  | nil =>
    intro row hrow
    unfold sanitizeGrids at hrow
    exact hw row hrow
  | cons r rs ih =>
    intro row hrow
    match a, w with
    | [], _ =>
      unfold sanitizeGrids at hrow
      exact hw row hrow
    | _ :: _, [] =>
      unfold sanitizeGrids at hrow
      exact hw row hrow
    | a0 :: al, w0 :: ws =>
      unfold sanitizeGrids at hrow
      have hws : WOKg ws := fun r2 hr2 => hw r2 (List.mem_cons_of_mem _ hr2)
      rcases List.mem_cons.mp hrow with h | h
      · subst h
        exact sanitizeRow_w_mem (hw w0 (List.mem_cons_self _ _))
      · exact ih hws _ h

theorem cw_nativeResize (s : WideCharScreen) (c l : Int) :
    (s.nativeResize c l).cellWidths = s.cellWidths := rfl

theorem cw_addRange (hi : Int) :
    ∀ (ns : List Nat) (t : WideCharScreen),
      (ns.foldl (fun u i => u.addToHistory (hi + (i : Int))) t).cellWidths =
        t.cellWidths :=
  cw_foldl (fun u _ => cw_addToHistory u _)

theorem cw_historyResize (s : WideCharScreen) (c l : Int) :
    (s.historyResize c l).cellWidths = s.cellWidths := by
  unfold historyResize
  split
  · rfl
  · simp only [cw_nativeResize, apply_ite WideCharScreen.cellWidths, cw_addRange,
      cw_HScrollToBottom, ite_self]

theorem WOKg_Resize {s : WideCharScreen} (hs : WOKg s.cellWidths)
    (c l : Int) : WOKg (s.Resize c l).cellWidths := by
  unfold Resize
  split
  · exact hs
  · simp only [apply_ite WideCharScreen.cellWidths]
    apply WOKg_sanitizeGrids
    simp only [apply_ite WideCharScreen.cellWidths, ite_self]
    exact WOKg_rebuildWidthGrid (cw_historyResize s c l ▸ hs) c l

theorem WidthsOK_applyOp {s : WideCharScreen} (hs : WidthsOK s) (op : Op) :
    WidthsOK (applyOp s op) := by
  have hs2 : WOKg s.cellWidths := hs
  cases op with
  | draw t => exact WOKg_Draw hs2 t
  | linefeed => simpa only [applyOp, WidthsOK, cw_Linefeed] using hs2
  | index => simpa only [applyOp, WidthsOK, cw_Index] using hs2
  | reverseIndex => simpa only [applyOp, WidthsOK, cw_ReverseIndex] using hs2
  | carriageReturn => simpa only [applyOp, WidthsOK, cw_CarriageReturn] using hs2
  | backspace => simpa only [applyOp, WidthsOK, cw_Backspace] using hs2
  | tab => simpa only [applyOp, WidthsOK, cw_Tab] using hs2
  | cursorUp n => simpa only [applyOp, WidthsOK, cw_CursorUp] using hs2
  | cursorDown n => simpa only [applyOp, WidthsOK, cw_CursorDown] using hs2
  | cursorForward n => simpa only [applyOp, WidthsOK, cw_CursorForward] using hs2
  | cursorBack n => simpa only [applyOp, WidthsOK, cw_CursorBack] using hs2
  | cursorPosition l c => simpa only [applyOp, WidthsOK, cw_CursorPosition] using hs2
  | saveCursor => simpa only [applyOp, WidthsOK, cw_SaveCursor] using hs2
  | restoreCursor => simpa only [applyOp, WidthsOK, cw_RestoreCursor] using hs2
  | setTabStop => simpa only [applyOp, WidthsOK, cw_SetTabStop] using hs2
  | clearTabStop how => simpa only [applyOp, WidthsOK, cw_ClearTabStop] using hs2
  | eraseCharacters n => exact WOKg_EraseCharacters hs2 n
  | eraseInLine how => simpa only [applyOp, WidthsOK, cw_EraseInLine] using hs2
  | eraseInDisplay how => simpa only [applyOp, WidthsOK, cw_EraseInDisplay] using hs2
  | selectGraphicRendition ps => simpa only [applyOp, WidthsOK, cw_SelectGraphicRendition] using hs2
  | setMode m p => simpa only [applyOp, WidthsOK, cw_SetMode] using hs2
  | resetMode m p => simpa only [applyOp, WidthsOK, cw_ResetMode] using hs2
  | scrollUpView n => simpa only [applyOp, WidthsOK, cw_ScrollUp] using hs2
  | scrollDownView n => simpa only [applyOp, WidthsOK, cw_ScrollDown] using hs2
  | scrollToBottom => simpa only [applyOp, WidthsOK, cw_ScrollToBottom] using hs2
  | resize c l => exact WOKg_Resize hs2 c l
  | reset => simpa only [applyOp, WidthsOK, cw_Reset] using hs2

theorem WidthsOK_applyOps {s : WideCharScreen} (hs : WidthsOK s)
    (ops : List Op) : WidthsOK (applyOps s ops) := by
  unfold applyOps
  induction ops generalizing s with
  | nil => exact hs
  | cons op rest ih => exact ih (WidthsOK_applyOp hs op)

theorem WidthsOK_new (c l m : Int) : WidthsOK (NewWideCharScreen c l m) := by
  intro row hrow v hv
  have h1 := List.eq_of_mem_replicate hrow
  subst h1
  exact Or.inr (Or.inl (List.eq_of_mem_replicate hv))

end WideCharScreen

/-- C2, amended: after any sequence of operations on a freshly constructed
wide-character screen, every stored `cellWidths` entry is 0, 1 or 2.  (The
two conditional clauses of the original claim fail: see the counterexample —
an orphaned continuation cell can follow a width-1 cell, and after a
column-shrinking `Resize` a width-2 cell can sit in the last column.) -/
theorem C2_corrected_thm (ops : List Op) (c l m : Int) :
    WidthsOK (applyOps (NewWideCharScreen c l m) ops) :=
  WidthsOK_applyOps (WidthsOK_new c l m) ops

namespace WideCharScreen

theorem save_history (s : WideCharScreen) :
    s.saveCurrentScreen.history = s.history := rfl

theorem save_historyPos (s : WideCharScreen) :
    s.saveCurrentScreen.historyPos = s.historyPos := rfl

theorem save_buffer (s : WideCharScreen) :
    s.saveCurrentScreen.buffer = s.buffer := rfl

theorem save_attrs (s : WideCharScreen) :
    s.saveCurrentScreen.attrs = s.attrs := rfl

theorem save_cursor (s : WideCharScreen) :
    s.saveCurrentScreen.cursor = s.cursor := rfl

theorem save_usingAlternate (s : WideCharScreen) :
    s.saveCurrentScreen.usingAlternate = s.usingAlternate := rfl

theorem save_savedCursor (s : WideCharScreen) :
    s.saveCurrentScreen.savedCursor = s.cursor := rfl

theorem save_savedBuffer (s : WideCharScreen) :
    s.saveCurrentScreen.savedBuffer = some ((List.range s.lines.toNat).map
      (fun i => takePad (s.buffer.getD i []) s.columns.toNat nulChar)) := rfl

theorem save_savedAttrs (s : WideCharScreen) :
    s.saveCurrentScreen.savedAttrs = some ((List.range s.lines.toNat).map
      (fun i => takePad (s.attrs.getD i []) s.columns.toNat ({} : Attributes))) := rfl

theorem render_savedBuffer (s : WideCharScreen) :
    s.renderHistoryView.savedBuffer = s.savedBuffer := rfl

theorem render_savedAttrs (s : WideCharScreen) :
    s.renderHistoryView.savedAttrs = s.savedAttrs := rfl

theorem render_savedCursor (s : WideCharScreen) :
    s.renderHistoryView.savedCursor = s.savedCursor := rfl

theorem render_viewingHistory (s : WideCharScreen) :
    s.renderHistoryView.viewingHistory = s.viewingHistory := rfl

theorem render_usingAlternate (s : WideCharScreen) :
    s.renderHistoryView.usingAlternate = s.usingAlternate := rfl

theorem render_historyPos (s : WideCharScreen) :
    s.renderHistoryView.historyPos = s.historyPos := rfl

theorem render_history (s : WideCharScreen) :
    s.renderHistoryView.history = s.history := rfl

theorem takePad_eq_self {row : List α} {n : Nat} (d : α) (h : row.length = n) :
    takePad row n d = row := by
  unfold takePad
  rw [← h, List.take_length, Nat.sub_self, List.replicate_zero, List.append_nil]

theorem saveGrid_eq {g : List (List α)} {linesN colsN : Nat} (d : α)
    (hl : g.length = linesN) (hw : ∀ row ∈ g, row.length = colsN) :
    (List.range linesN).map (fun i => takePad (g.getD i []) colsN d) = g := by
  apply List.ext_getElem
  · simp [hl]
  · intro i h1 h2
    simp only [List.getElem_map, List.getElem_range]
    rw [List.getD_eq_getElem g [] h2]
    exact takePad_eq_self d (hw _ (List.getElem_mem h2))

end WideCharScreen

/-- C10: `ScrollUp(n)` on the main screen from the live view with nothing to
scroll (`n ≤ 0` or empty history) leaves the grid, cursor position and hidden
flag unchanged, yet saves a snapshot of the live screen and reports
`IsViewingHistory() = true` afterwards. -/
theorem C10_thm (s : WideCharScreen) (n : Int)
    (halt : s.usingAlternate = false)
    (hview : s.viewingHistory = false)
    (hpos : s.historyPos = 0)
    (hnothing : n ≤ 0 ∨ s.history = []) :
    (s.ScrollUp n).buffer = s.buffer ∧
    (s.ScrollUp n).attrs = s.attrs ∧
    (s.ScrollUp n).cursor = s.cursor ∧
    (s.ScrollUp n).IsViewingHistory = true ∧
    s.ScrollUp n = { s.saveCurrentScreen with viewingHistory := true } := by
  have key : s.ScrollUp n = { s.saveCurrentScreen with viewingHistory := true } := by
    simp only [ScrollUp, HScrollUp, halt, Bool.false_eq_true, if_false, hview,
      not_false_iff, if_true, save_history, save_historyPos, hpos, sub_zero]
    have hlen : n ≤ 0 ∨ (s.history.length : Int) = 0 := by
      rcases hnothing with h | h
      · exact Or.inl h
      · exact Or.inr (by rw [h]; rfl)
    split_ifs with h1 h2 h3 <;> first | rfl | omega
  exact ⟨by rw [key]; rfl, by rw [key]; rfl, by rw [key]; rfl, by rw [key]; rfl, key⟩

/-- Witness for C10 at a concrete screen. -/
theorem C10_witness :
    (applyOps (NewWideCharScreen 2 2 10) [Op.draw ['a']]).usingAlternate = false ∧
    (applyOps (NewWideCharScreen 2 2 10) [Op.draw ['a']]).viewingHistory = false ∧
    (applyOps (NewWideCharScreen 2 2 10) [Op.draw ['a']]).historyPos = 0 ∧
    ((applyOps (NewWideCharScreen 2 2 10) [Op.draw ['a']]).ScrollUp 0).cursor =
      (applyOps (NewWideCharScreen 2 2 10) [Op.draw ['a']]).cursor ∧
    ((applyOps (NewWideCharScreen 2 2 10) [Op.draw ['a']]).ScrollUp
      0).IsViewingHistory = true :=
  ⟨by decide, by decide, by decide,
    (C10_thm (applyOps (NewWideCharScreen 2 2 10) [Op.draw ['a']]) 0 (by decide)
      (by decide) (by decide) (Or.inl (by decide))).2.2.1,
    (C10_thm (applyOps (NewWideCharScreen 2 2 10) [Op.draw ['a']]) 0 (by decide)
      (by decide) (by decide) (Or.inl (by decide))).2.2.2.1⟩

namespace WideCharScreen

theorem restore_of_some {t : WideCharScreen} {sb : List (List Char)}
    (h : t.savedBuffer = some sb) :
    t.restoreCurrentScreen = { t with
      buffer := sb
      attrs := t.savedAttrs.getD []
      cursor := { t.savedCursor with hidden := false }
      savedBuffer := none
      savedAttrs := none } := by
  simp only [restoreCurrentScreen, h]

/-- After `ScrollUp n` from a live main-screen state with `1 ≤ n ≤ history`,
`ScrollDown n` restores the saved grid, the saved cursor (unhidden), and
leaves the history view. -/
theorem scroll_roundtrip (s : WideCharScreen) (n : Int)
    (halt : s.usingAlternate = false)
    (hview : s.viewingHistory = false)
    (hpos : s.historyPos = 0)
    (hn1 : 1 ≤ n) (hn2 : n ≤ (s.history.length : Int))
    (hbl : s.buffer.length = s.lines.toNat)
    (hbw : ∀ row ∈ s.buffer, row.length = s.columns.toNat)
    (hal : s.attrs.length = s.lines.toNat)
    (haw : ∀ row ∈ s.attrs, row.length = s.columns.toNat) :
    ((s.ScrollUp n).ScrollDown n).buffer = s.buffer ∧
    ((s.ScrollUp n).ScrollDown n).attrs = s.attrs ∧
    ((s.ScrollUp n).ScrollDown n).cursor = { s.cursor with hidden := false } ∧
    ((s.ScrollUp n).ScrollDown n).viewingHistory = false := by
  have hup : s.ScrollUp n =
      ({ s.saveCurrentScreen with
          viewingHistory := true
          historyPos := n } : WideCharScreen).renderHistoryView := by
    simp only [ScrollUp, HScrollUp, halt, Bool.false_eq_true, if_false, hview,
      not_false_iff, if_true, save_history, save_historyPos, hpos, sub_zero,
      zero_add]
    rw [if_neg (by omega), if_neg (by omega)]
  set t := ({ s.saveCurrentScreen with
    viewingHistory := true
    historyPos := n } : WideCharScreen).renderHistoryView with ht
  have htalt : t.usingAlternate = false := halt
  have htview : t.viewingHistory = true := rfl
  have htpos : t.historyPos = n := rfl
  have hdown : t.ScrollDown n =
      { ({ t with historyPos := 0 }).restoreCurrentScreen with
        viewingHistory := false } := by
    simp only [ScrollDown, HScrollDown, htalt, Bool.false_eq_true, if_false,
      htview, not_true, if_true, htpos, not_false_iff, sub_self]
    rw [if_pos (by omega)]
  have hsb : ({ t with historyPos := 0 } : WideCharScreen).savedBuffer =
      some ((List.range s.lines.toNat).map
        (fun i => takePad (s.buffer.getD i []) s.columns.toNat nulChar)) := rfl
  have hsa : ({ t with historyPos := 0 } : WideCharScreen).savedAttrs =
      some ((List.range s.lines.toNat).map
        (fun i => takePad (s.attrs.getD i []) s.columns.toNat
          ({} : Attributes))) := rfl
  have hsc : ({ t with historyPos := 0 } : WideCharScreen).savedCursor =
      s.cursor := rfl
  have hrest := restore_of_some hsb
  rw [hup, hdown, hrest]
  refine ⟨?_, ?_, ?_, rfl⟩
  · show (List.range s.lines.toNat).map
      (fun i => takePad (s.buffer.getD i []) s.columns.toNat nulChar) = s.buffer
    exact saveGrid_eq nulChar hbl hbw
  · show (({ t with historyPos := 0 } : WideCharScreen).savedAttrs).getD [] =
      s.attrs
    rw [hsa]
    show (List.range s.lines.toNat).map
      (fun i => takePad (s.attrs.getD i []) s.columns.toNat ({} : Attributes)) =
        s.attrs
    exact saveGrid_eq {} hal haw
  · show ({ ({ t with historyPos := 0 } : WideCharScreen).savedCursor with
      hidden := false } : Cursor) = { s.cursor with hidden := false }
    rw [hsc]

end WideCharScreen

/-- C5: from a live (not viewing-history) main-screen state with `1 ≤ n ≤`
history size, `ScrollUp(n)` then `ScrollDown(n)` restores the visible grid
and the cursor, the cursor is unhidden, and `IsViewingHistory()` is false.
A live state has `historyPos = 0`, an unhidden cursor, and a grid of exactly
`lines × columns` cells. -/
theorem C5_thm (s : WideCharScreen) (n : Int)
    (halt : s.usingAlternate = false)
    (hview : s.viewingHistory = false)
    (hpos : s.historyPos = 0)
    (hhid : s.cursor.hidden = false)
    (hn1 : 1 ≤ n) (hn2 : n ≤ (s.history.length : Int))
    (hbl : s.buffer.length = s.lines.toNat)
    (hbw : ∀ row ∈ s.buffer, row.length = s.columns.toNat)
    (hal : s.attrs.length = s.lines.toNat)
    (haw : ∀ row ∈ s.attrs, row.length = s.columns.toNat) :
    ((s.ScrollUp n).ScrollDown n).buffer = s.buffer ∧
    ((s.ScrollUp n).ScrollDown n).attrs = s.attrs ∧
    ((s.ScrollUp n).ScrollDown n).cursor = s.cursor ∧
    ((s.ScrollUp n).ScrollDown n).cursor.hidden = false ∧
    ((s.ScrollUp n).ScrollDown n).IsViewingHistory = false := by
  obtain ⟨h1, h2, h3, h4⟩ :=
    scroll_roundtrip s n halt hview hpos hn1 hn2 hbl hbw hal haw
  have hc : ({ s.cursor with hidden := false } : Cursor) = s.cursor := by
    rw [← hhid]
  exact ⟨h1, h2, h3.trans hc, by rw [h3], by
    show ((s.ScrollUp n).ScrollDown n).viewingHistory = false
    exact h4⟩

/-- Witness for C5 on a concrete screen with one history line. -/
theorem C5_witness :
    ((applyOps (NewWideCharScreen 2 2 3)
        [Op.draw ['h', 'i'], Op.linefeed, Op.linefeed,
         Op.draw ['L', 'I']]).GetHistorySize = 1) ∧
    (((applyOps (NewWideCharScreen 2 2 3)
        [Op.draw ['h', 'i'], Op.linefeed, Op.linefeed,
         Op.draw ['L', 'I']]).ScrollUp 1).ScrollDown 1).cursor =
      (applyOps (NewWideCharScreen 2 2 3)
        [Op.draw ['h', 'i'], Op.linefeed, Op.linefeed,
         Op.draw ['L', 'I']]).cursor ∧
    (((applyOps (NewWideCharScreen 2 2 3)
        [Op.draw ['h', 'i'], Op.linefeed, Op.linefeed,
         Op.draw ['L', 'I']]).ScrollUp 1).ScrollDown 1).IsViewingHistory =
      false :=
  ⟨by decide,
    (C5_thm (applyOps (NewWideCharScreen 2 2 3)
        [Op.draw ['h', 'i'], Op.linefeed, Op.linefeed, Op.draw ['L', 'I']]) 1
      (by decide) (by decide) (by decide) (by decide) (by decide) (by decide)
      (by decide) (by decide) (by decide) (by decide)).2.2.1,
    (C5_thm (applyOps (NewWideCharScreen 2 2 3)
        [Op.draw ['h', 'i'], Op.linefeed, Op.linefeed, Op.draw ['L', 'I']]) 1
      (by decide) (by decide) (by decide) (by decide) (by decide) (by decide)
      (by decide) (by decide) (by decide) (by decide)).2.2.2.2⟩

/-- C6, amended: from a live view, `ScrollDown(0)` is a complete no-op, and
`ScrollUp(n)` followed by `ScrollDown(n)` (not the reverse order, which the
counterexample refutes) with `1 ≤ n ≤ historySize` returns the live grid to
the same state. -/
theorem C6_corrected_thm (s : WideCharScreen) (n : Int)
    (halt : s.usingAlternate = false)
    (hview : s.viewingHistory = false)
    (hpos : s.historyPos = 0)
    (hn1 : 1 ≤ n) (hn2 : n ≤ (s.history.length : Int))
    (hbl : s.buffer.length = s.lines.toNat)
    (hbw : ∀ row ∈ s.buffer, row.length = s.columns.toNat)
    (hal : s.attrs.length = s.lines.toNat)
    (haw : ∀ row ∈ s.attrs, row.length = s.columns.toNat) :
    s.ScrollDown 0 = s ∧
    ((s.ScrollUp n).ScrollDown n).buffer = s.buffer ∧
    ((s.ScrollUp n).ScrollDown n).attrs = s.attrs := by
  obtain ⟨h1, h2, _, _⟩ :=
    scroll_roundtrip s n halt hview hpos hn1 hn2 hbl hbw hal haw
  refine ⟨?_, h1, h2⟩
  simp only [ScrollDown, HScrollDown, hview, Bool.false_eq_true, not_false_iff,
    if_true, ite_self]

/-- Witness for C6 on a concrete screen with one history line. -/
theorem C6_witness :
    ((applyOps (NewWideCharScreen 2 2 3)
        [Op.draw ['h', 'i'], Op.linefeed, Op.linefeed,
         Op.draw ['L', 'I']]).ScrollDown 0 =
      applyOps (NewWideCharScreen 2 2 3)
        [Op.draw ['h', 'i'], Op.linefeed, Op.linefeed, Op.draw ['L', 'I']]) ∧
    (((applyOps (NewWideCharScreen 2 2 3)
        [Op.draw ['h', 'i'], Op.linefeed, Op.linefeed,
         Op.draw ['L', 'I']]).ScrollUp 1).ScrollDown 1).buffer =
      (applyOps (NewWideCharScreen 2 2 3)
        [Op.draw ['h', 'i'], Op.linefeed, Op.linefeed,
         Op.draw ['L', 'I']]).buffer :=
  ⟨(C6_corrected_thm (applyOps (NewWideCharScreen 2 2 3)
      [Op.draw ['h', 'i'], Op.linefeed, Op.linefeed, Op.draw ['L', 'I']]) 1
    (by decide) (by decide) (by decide) (by decide) (by decide) (by decide)
    (by decide) (by decide) (by decide)).1,
   (C6_corrected_thm (applyOps (NewWideCharScreen 2 2 3)
      [Op.draw ['h', 'i'], Op.linefeed, Op.linefeed, Op.draw ['L', 'I']]) 1
    (by decide) (by decide) (by decide) (by decide) (by decide) (by decide)
    (by decide) (by decide) (by decide)).2.1⟩

namespace WideCharScreen

theorem af_scrollUpInternal (u : WideCharScreen) :
    altFrame u.scrollUpInternal = altFrame u := rfl

theorem af_scrollUpNoHistory (u : WideCharScreen) :
    altFrame u.scrollUpNoHistory = altFrame u := rfl

theorem af_addToHistory (u : WideCharScreen) (n : Int) :
    altFrame (u.addToHistory n) = altFrame u := by
  unfold addToHistory; split <;> rfl

theorem af_clearHere (u : WideCharScreen) (y x : Int) :
    altFrame (clearHere u y x) = altFrame u := by
  simp only [clearHere, apply_ite altFrame]
  split <;> rfl

theorem af_clearCellAtN (u : WideCharScreen) (y : Int) (n : Nat) :
    altFrame (clearCellAtN u y n) = altFrame u := by
  induction n generalizing u with
  | zero =>
    unfold clearCellAtN
    split
    · rfl
    · exact af_clearHere u _ _
  | succ n ih =>
    unfold clearCellAtN
    split
    · rfl
    · split
      · exact ih u
      · exact af_clearHere u _ _

theorem af_withCursor (X : WideCharScreen) (c : Cursor) :
    altFrame { X with cursor := c } = altFrame X := rfl

theorem af_withBuffer (X : WideCharScreen) (b : List (List Char)) :
    altFrame { X with buffer := b } = altFrame X := rfl

theorem af_withHistClear (X : WideCharScreen) (h : List HistoryLine) (p : Int) :
    altFrame { X with history := h, historyPos := p } = altFrame X := rfl

theorem af_drawCharPlace (u : WideCharScreen) (ch : Char) (w : Int) :
    altFrame (drawCharPlace u ch w) = altFrame u := by
  simp only [drawCharPlace, apply_ite altFrame]
  split
  · split
    · exact af_clearCellAtN u _ _
    · exact af_clearCellAtN u _ _
  · rfl

theorem af_drawChar (u : WideCharScreen) (ch : Char) :
    altFrame (u.drawChar ch) = altFrame u := by
  simp only [drawChar]
  split
  · rfl
  · split
    · split
      · rw [af_drawCharPlace]
        simp only [af_withCursor, apply_ite altFrame, af_scrollUpNoHistory,
          af_scrollUpInternal, af_addToHistory, ite_self]
      · rfl
    · exact af_drawCharPlace u ch _

theorem af_foldl {β : Type} {f : WideCharScreen → β → WideCharScreen}
    (hf : ∀ u b, altFrame (f u b) = altFrame u) :
    ∀ (l : List β) (u : WideCharScreen), altFrame (l.foldl f u) = altFrame u := by
  intro l
  induction l with
  | nil => intro u; rfl
  | cons b bs ih => intro u; rw [List.foldl_cons, ih, hf]

theorem af_Draw (u : WideCharScreen) (t : List Char)
    (halt : u.usingAlternate = true) :
    altFrame (u.Draw t) = altFrame u := by
  unfold Draw
  rw [if_neg (by simp [halt])]
  exact af_foldl af_drawChar t u

theorem af_Linefeed (u : WideCharScreen) :
    altFrame u.Linefeed = altFrame u := by
  simp only [Linefeed, af_withCursor, apply_ite altFrame, af_scrollUpNoHistory,
    af_scrollUpInternal, af_addToHistory, ite_self]

theorem af_Index (u : WideCharScreen) :
    altFrame u.Index = altFrame u := by
  simp only [Index, af_withCursor, apply_ite altFrame, af_scrollUpNoHistory,
    af_scrollUpInternal, af_addToHistory, ite_self]

theorem af_EraseInLine (u : WideCharScreen) (how : Int) (p : Bool) :
    altFrame (u.EraseInLine how p) = altFrame u := by
  simp only [EraseInLine, af_withBuffer, apply_ite altFrame, ite_self]

theorem af_NativeEraseInDisplay (u : WideCharScreen) (how : Int) :
    altFrame (u.NativeEraseInDisplay how) = altFrame u := by
  simp only [NativeEraseInDisplay, af_withBuffer, apply_ite altFrame,
    af_EraseInLine, ite_self]

theorem af_EraseInDisplay (u : WideCharScreen) (how : Int)
    (hview : u.viewingHistory = false) :
    altFrame (u.EraseInDisplay how) = altFrame u := by
  simp only [EraseInDisplay, hview, Bool.false_eq_true, if_false,
    af_withHistClear, apply_ite altFrame, af_NativeEraseInDisplay, ite_self]

theorem af_clearCellAt (u : WideCharScreen) (y x : Int) :
    altFrame (u.clearCellAt y x) = altFrame u :=
  af_clearCellAtN u y x.toNat

theorem af_eraseCharsAux (u : WideCharScreen) (n : Nat) (x : Int) :
    altFrame (eraseCharsAux u n x) = altFrame u := by
  induction n generalizing u x with
  | zero => rfl
  | succ n ih =>
    unfold eraseCharsAux
    split
    · rw [ih, af_clearCellAt]
    · rfl

theorem af_EraseCharacters (u : WideCharScreen) (n : Int) :
    altFrame (u.EraseCharacters n) = altFrame u :=
  af_eraseCharsAux u n.toNat u.cursor.x

end WideCharScreen

namespace WideCharScreen

theorem af_applyOp (u : WideCharScreen) (op : Op) (hop : altWorkOp op = true)
    (halt : u.usingAlternate = true) (hview : u.viewingHistory = false) :
    altFrame (applyOp u op) = altFrame u := by
  cases op with
  | draw t => exact af_Draw u t halt
  | linefeed => exact af_Linefeed u
  | index => exact af_Index u
  | eraseInDisplay how => exact af_EraseInDisplay u how hview
  | eraseInLine how => exact af_EraseInLine u how false
  | eraseCharacters n => exact af_EraseCharacters u n
  | _ => simp [altWorkOp] at hop

theorem af_applyOps (ops : List Op) (hops : ∀ op ∈ ops, altWorkOp op = true) :
    ∀ (u : WideCharScreen), u.usingAlternate = true → u.viewingHistory = false →
      altFrame (applyOps u ops) = altFrame u := by
  induction ops with
  | nil => intro u _ _; rfl
  | cons op rest ih =>
    intro u halt hview
    have h1 := af_applyOp u op (hops op (List.mem_cons_self _ _)) halt hview
    have halt2 : (applyOp u op).usingAlternate = true :=
      (congrArg (fun t => t.1) h1).trans halt
    have hview2 : (applyOp u op).viewingHistory = false :=
      (congrArg (fun t => t.2.1) h1).trans hview
    have h2 := ih (fun o ho => hops o (List.mem_cons_of_mem _ ho))
      (applyOp u op) halt2 hview2
    exact h2.trans h1

theorem enter_eq (s : WideCharScreen) (m : Int)
    (hm : m = 1049 ∨ m = 1047 ∨ m = 47) (halt : s.usingAlternate = false) :
    s.SetMode [m] true = s.switchToAlternate := by
  rcases hm with rfl | rfl | rfl <;>
    simp [SetMode, setModeAltStep, setModeBaseStep, halt]

theorem exit_eq (u : WideCharScreen) (m : Int)
    (hm : m = 1049 ∨ m = 1047 ∨ m = 47) (halt : u.usingAlternate = true) :
    u.ResetMode [m] true = u.switchToMain := by
  rcases hm with rfl | rfl | rfl <;>
    simp [ResetMode, resetModeAltStep, resetModeBaseStep, halt]

theorem switchToMain_buffer {u : WideCharScreen} (h : u.usingAlternate = true) :
    u.switchToMain.buffer = u.mainBuffer := by
  simp [switchToMain, h]

theorem switchToMain_attrs {u : WideCharScreen} (h : u.usingAlternate = true) :
    u.switchToMain.attrs = u.mainAttrs := by
  simp [switchToMain, h]

theorem switchToMain_cursor {u : WideCharScreen} (h : u.usingAlternate = true) :
    u.switchToMain.cursor = u.mainCursor := by
  simp [switchToMain, h]

theorem switchToMain_tabStops {u : WideCharScreen} (h : u.usingAlternate = true) :
    u.switchToMain.tabStops = u.mainTabStops := by
  simp [switchToMain, h]

theorem switchToMain_history {u : WideCharScreen} (h : u.usingAlternate = true) :
    u.switchToMain.history = u.mainHistory := by
  simp [switchToMain, h]

theorem switchToMain_usingAlternate {u : WideCharScreen}
    (h : u.usingAlternate = true) :
    u.switchToMain.usingAlternate = false := by
  simp [switchToMain, h]

end WideCharScreen

/-- C4: entering the alternate screen (private mode 1049, 1047 or 47) from a
main-screen state, performing any sequence of `Draw`, `Linefeed`, `Index` and
erasure operations there, and exiting (reset of any of those modes), restores
the main buffer, attributes, cursor, tab stops and history exactly; in
particular `GetHistorySize` is unchanged, and the screen is back on the main
buffer. -/
theorem C4_thm (s : WideCharScreen) (ops : List Op) (me mx : Int)
    (hme : me = 1049 ∨ me = 1047 ∨ me = 47)
    (hmx : mx = 1049 ∨ mx = 1047 ∨ mx = 47)
    (halt : s.usingAlternate = false)
    (hops : ∀ op ∈ ops, altWorkOp op = true) :
    ((applyOps (s.SetMode [me] true) ops).ResetMode [mx] true).buffer =
      s.buffer ∧
    ((applyOps (s.SetMode [me] true) ops).ResetMode [mx] true).attrs =
      s.attrs ∧
    ((applyOps (s.SetMode [me] true) ops).ResetMode [mx] true).cursor =
      s.cursor ∧
    ((applyOps (s.SetMode [me] true) ops).ResetMode [mx] true).tabStops =
      s.tabStops ∧
    ((applyOps (s.SetMode [me] true) ops).ResetMode [mx] true).history =
      s.history ∧
    ((applyOps (s.SetMode [me] true) ops).ResetMode [mx] true).GetHistorySize =
      s.GetHistorySize ∧
    ((applyOps (s.SetMode [me] true) ops).ResetMode [mx] true).usingAlternate =
      false := by
  rw [enter_eq s me hme halt]
  have h1 : altFrame (applyOps s.switchToAlternate ops) =
      (true, false, s.buffer, s.attrs, s.cursor, s.tabStops, s.history) :=
    af_applyOps ops hops s.switchToAlternate rfl rfl
  have halt2 : (applyOps s.switchToAlternate ops).usingAlternate = true :=
    congrArg (fun t => t.1) h1
  rw [exit_eq _ mx hmx halt2]
  have hmb : (applyOps s.switchToAlternate ops).mainBuffer = s.buffer :=
    congrArg (fun t => t.2.2.1) h1
  have hma : (applyOps s.switchToAlternate ops).mainAttrs = s.attrs :=
    congrArg (fun t => t.2.2.2.1) h1
  have hmc : (applyOps s.switchToAlternate ops).mainCursor = s.cursor :=
    congrArg (fun t => t.2.2.2.2.1) h1
  have hmt : (applyOps s.switchToAlternate ops).mainTabStops = s.tabStops :=
    congrArg (fun t => t.2.2.2.2.2.1) h1
  have hmh : (applyOps s.switchToAlternate ops).mainHistory = s.history :=
    congrArg (fun t => t.2.2.2.2.2.2) h1
  refine ⟨(switchToMain_buffer halt2).trans hmb,
    (switchToMain_attrs halt2).trans hma,
    (switchToMain_cursor halt2).trans hmc,
    (switchToMain_tabStops halt2).trans hmt,
    (switchToMain_history halt2).trans hmh, ?_,
    switchToMain_usingAlternate halt2⟩
  show ((applyOps s.switchToAlternate ops).switchToMain.history.length : Int) =
    (s.history.length : Int)
  rw [switchToMain_history halt2, hmh]

/-- Witness for C4 on a concrete screen. -/
theorem C4_witness :
    (applyOps (NewWideCharScreen 3 2 5)
        [Op.draw ['X'], Op.carriageReturn, Op.linefeed]).usingAlternate =
      false ∧
    ((applyOps ((applyOps (NewWideCharScreen 3 2 5)
        [Op.draw ['X'], Op.carriageReturn, Op.linefeed]).SetMode [1049] true)
        [Op.draw ['v', 'i', 'm'], Op.linefeed, Op.eraseInDisplay 2]).ResetMode
        [1049] true).buffer =
      (applyOps (NewWideCharScreen 3 2 5)
        [Op.draw ['X'], Op.carriageReturn, Op.linefeed]).buffer ∧
    ((applyOps ((applyOps (NewWideCharScreen 3 2 5)
        [Op.draw ['X'], Op.carriageReturn, Op.linefeed]).SetMode [1049] true)
        [Op.draw ['v', 'i', 'm'], Op.linefeed, Op.eraseInDisplay 2]).ResetMode
        [1049] true).GetHistorySize =
      (applyOps (NewWideCharScreen 3 2 5)
        [Op.draw ['X'], Op.carriageReturn, Op.linefeed]).GetHistorySize :=
  ⟨by decide,
    (C4_thm (applyOps (NewWideCharScreen 3 2 5)
        [Op.draw ['X'], Op.carriageReturn, Op.linefeed])
      [Op.draw ['v', 'i', 'm'], Op.linefeed, Op.eraseInDisplay 2] 1049 1049
      (Or.inl rfl) (Or.inl rfl) (by decide) (by decide)).1,
    (C4_thm (applyOps (NewWideCharScreen 3 2 5)
        [Op.draw ['X'], Op.carriageReturn, Op.linefeed])
      [Op.draw ['v', 'i', 'm'], Op.linefeed, Op.eraseInDisplay 2] 1049 1049
      (Or.inl rfl) (Or.inl rfl) (by decide) (by decide)).2.2.2.2.2.1⟩

namespace WideCharScreen

theorem HistBound_of_eq {u t : WideCharScreen} (h : hist3 t = hist3 u)
    (hu : HistBound u) : HistBound t := by
  obtain ⟨h1, h2, h3⟩ := hu
  have e1 : t.history = u.history := congrArg (fun p => p.1) h
  have e2 : t.mainHistory = u.mainHistory := congrArg (fun p => p.2.1) h
  have e3 : t.maxHistory = u.maxHistory := congrArg (fun p => p.2.2) h
  exact ⟨by rw [e1, e3]; exact h1, by rw [e2, e3]; exact h2, by rw [e3]; exact h3⟩

theorem h3_withCursor (X : WideCharScreen) (c : Cursor) :
    hist3 { X with cursor := c } = hist3 X := rfl

theorem h3_withBuffer (X : WideCharScreen) (b : List (List Char)) :
    hist3 { X with buffer := b } = hist3 X := rfl

theorem h3_scrollUpInternal (u : WideCharScreen) :
    hist3 u.scrollUpInternal = hist3 u := rfl

theorem h3_scrollUpNoHistory (u : WideCharScreen) :
    hist3 u.scrollUpNoHistory = hist3 u := rfl

theorem h3_scrollDown (u : WideCharScreen) :
    hist3 u.scrollDown = hist3 u := rfl

theorem h3_saveCurrentScreen (u : WideCharScreen) :
    hist3 u.saveCurrentScreen = hist3 u := rfl

theorem h3_restoreCurrentScreen (u : WideCharScreen) :
    hist3 u.restoreCurrentScreen = hist3 u := by
  unfold restoreCurrentScreen; split <;> rfl

theorem h3_renderHistoryView (u : WideCharScreen) :
    hist3 u.renderHistoryView = hist3 u := rfl

theorem h3_clearHere (u : WideCharScreen) (y x : Int) :
    hist3 (clearHere u y x) = hist3 u := by
  simp only [clearHere, apply_ite hist3]
  split <;> rfl

theorem h3_clearCellAtN (u : WideCharScreen) (y : Int) (n : Nat) :
    hist3 (clearCellAtN u y n) = hist3 u := by
  induction n generalizing u with
  | zero =>
    unfold clearCellAtN
    split
    · rfl
    · exact h3_clearHere u _ _
  | succ n ih =>
    unfold clearCellAtN
    split
    · rfl
    · split
      · exact ih u
      · exact h3_clearHere u _ _

theorem h3_clearCellAt (u : WideCharScreen) (y x : Int) :
    hist3 (u.clearCellAt y x) = hist3 u :=
  h3_clearCellAtN u y x.toNat

theorem h3_drawCharPlace (u : WideCharScreen) (ch : Char) (w : Int) :
    hist3 (drawCharPlace u ch w) = hist3 u := by
  simp only [drawCharPlace, apply_ite hist3]
  split
  · split
    · exact h3_clearCellAtN u _ _
    · exact h3_clearCellAtN u _ _
  · rfl

theorem pushHistory_length {m : Int} (hm : 0 ≤ m) {h : List HistoryLine}
    (hh : (h.length : Int) ≤ m) (line : HistoryLine) :
    ((pushHistory m h line).length : Int) ≤ m := by
  simp only [pushHistory]
  split
  · simp only [List.length_drop, List.length_append, List.length_singleton]
    push_cast
    omega
  · next hgt =>
    simp only [List.length_append, List.length_singleton] at hgt ⊢
    push_cast at hgt ⊢
    omega

theorem hb_addToHistory {u : WideCharScreen} (hu : HistBound u) (n : Int) :
    HistBound (u.addToHistory n) := by
  unfold addToHistory
  split
  · obtain ⟨h1, h2, h3⟩ := hu
    exact ⟨pushHistory_length h3 h1 _, h2, h3⟩
  · exact hu

theorem hb_drawChar {u : WideCharScreen} (hu : HistBound u) (ch : Char) :
    HistBound (u.drawChar ch) := by
  simp only [drawChar]
  split
  · exact hu
  · split
    · split
      · apply HistBound_of_eq (h3_drawCharPlace _ ch _)
        split
        · apply HistBound_of_eq (h3_withCursor _ _)
          split
          · exact HistBound_of_eq (h3_scrollUpNoHistory _)
              (HistBound_of_eq (h3_withCursor _ _) hu)
          · exact HistBound_of_eq (h3_scrollUpInternal _)
              (hb_addToHistory (HistBound_of_eq (h3_withCursor _ _) hu) 0)
        · exact HistBound_of_eq (h3_withCursor _ _) hu
      · exact hu
    · exact HistBound_of_eq (h3_drawCharPlace _ ch _) hu

theorem h3_withViewing (X : WideCharScreen) (b : Bool) :
    hist3 { X with viewingHistory := b } = hist3 X := rfl

theorem hb_HScrollToBottom {u : WideCharScreen} (hu : HistBound u) :
    HistBound u.HScrollToBottom := by
  unfold HScrollToBottom
  split
  · exact HistBound_of_eq ((h3_withViewing _ _).trans
      (h3_restoreCurrentScreen _)) hu
  · exact hu

theorem hb_Draw {u : WideCharScreen} (hu : HistBound u) (t : List Char) :
    HistBound (u.Draw t) := by
  unfold Draw
  have hpre : HistBound (if ¬u.usingAlternate = true ∧ u.viewingHistory = true
      then u.ScrollToBottom else u) := by
    split
    · unfold ScrollToBottom
      split
      · exact hu
      · exact hb_HScrollToBottom hu
    · exact hu
  generalize (if ¬u.usingAlternate = true ∧ u.viewingHistory = true then
    u.ScrollToBottom else u) = w at hpre
  induction t generalizing w with
  | nil => exact hpre
  | cons c cs ih => exact ih _ (hb_drawChar hpre c)

end WideCharScreen

namespace WideCharScreen

theorem hb_Linefeed {u : WideCharScreen} (hu : HistBound u) :
    HistBound u.Linefeed := by
  simp only [Linefeed]
  have hmid : HistBound (if u.usingAlternate = true then
      (if u.cursor.y = u.lines - 1 then u.scrollUpNoHistory
        else { u with cursor := { u.cursor with y := u.cursor.y + 1 } })
      else (if u.cursor.y = u.lines - 1 then (u.addToHistory 0).scrollUpInternal
        else { u with cursor := { u.cursor with y := u.cursor.y + 1 } })) := by
    split
    · split
      · exact HistBound_of_eq (h3_scrollUpNoHistory _) hu
      · exact HistBound_of_eq (h3_withCursor _ _) hu
    · split
      · exact HistBound_of_eq (h3_scrollUpInternal _) (hb_addToHistory hu 0)
      · exact HistBound_of_eq (h3_withCursor _ _) hu
  generalize (if u.usingAlternate = true then
      (if u.cursor.y = u.lines - 1 then u.scrollUpNoHistory
        else { u with cursor := { u.cursor with y := u.cursor.y + 1 } })
      else (if u.cursor.y = u.lines - 1 then (u.addToHistory 0).scrollUpInternal
        else { u with cursor := { u.cursor with y := u.cursor.y + 1 } })) = w
    at hmid
  split
  · exact HistBound_of_eq (h3_withCursor _ _) hmid
  · exact hmid

theorem hb_Index {u : WideCharScreen} (hu : HistBound u) :
    HistBound u.Index := by
  simp only [Index]
  split
  · split
    · exact HistBound_of_eq (h3_scrollUpNoHistory _) hu
    · exact HistBound_of_eq (h3_withCursor _ _) hu
  · split
    · exact HistBound_of_eq (h3_scrollUpInternal _) (hb_addToHistory hu 0)
    · exact HistBound_of_eq (h3_withCursor _ _) hu

theorem h3_ReverseIndex (u : WideCharScreen) :
    hist3 u.ReverseIndex = hist3 u := by
  simp only [ReverseIndex, h3_withCursor, apply_ite hist3, h3_scrollDown,
    ite_self]

theorem h3_CarriageReturn (u : WideCharScreen) :
    hist3 u.CarriageReturn = hist3 u := rfl

theorem h3_Backspace (u : WideCharScreen) :
    hist3 u.Backspace = hist3 u := by
  simp only [Backspace, h3_withCursor, apply_ite hist3, ite_self]

theorem h3_Tab (u : WideCharScreen) :
    hist3 u.Tab = hist3 u := by
  simp only [Tab]
  split <;> rfl

theorem h3_CursorUp (u : WideCharScreen) (n : Int) :
    hist3 (u.CursorUp n) = hist3 u := rfl

theorem h3_CursorDown (u : WideCharScreen) (n : Int) :
    hist3 (u.CursorDown n) = hist3 u := rfl

theorem h3_CursorPosition (u : WideCharScreen) (l c : Int) :
    hist3 (u.CursorPosition l c) = hist3 u := rfl

theorem h3_cursorBackAux (u : WideCharScreen) (n : Nat) :
    hist3 (u.cursorBackAux n) = hist3 u := by
  induction n generalizing u with
  | zero => rfl
  | succ n ih =>
    simp only [cursorBackAux]
    split
    · rfl
    · rw [ih]
      exact h3_withCursor _ _

theorem h3_CursorBack (u : WideCharScreen) (n : Int) :
    hist3 (u.CursorBack n) = hist3 u := by
  simp only [CursorBack, h3_withCursor, apply_ite hist3, h3_cursorBackAux,
    ite_self]

theorem h3_cursorForwardAux (u : WideCharScreen) (n : Nat) :
    hist3 (u.cursorForwardAux n) = hist3 u := by
  induction n generalizing u with
  | zero => rfl
  | succ n ih =>
    simp only [cursorForwardAux]
    split
    · rfl
    · rw [ih]
      exact h3_withCursor _ _

theorem h3_CursorForward (u : WideCharScreen) (n : Int) :
    hist3 (u.CursorForward n) = hist3 u := by
  simp only [CursorForward, h3_withCursor, apply_ite hist3, h3_cursorForwardAux,
    ite_self]

theorem h3_SaveCursor (u : WideCharScreen) :
    hist3 u.SaveCursor = hist3 u := rfl

theorem h3_RestoreCursor (u : WideCharScreen) :
    hist3 u.RestoreCursor = hist3 u := by
  simp only [RestoreCursor]
  split <;> rfl

theorem h3_withTabStops (X : WideCharScreen) (t : List Int) :
    hist3 { X with tabStops := t } = hist3 X := rfl

theorem h3_SetTabStop (u : WideCharScreen) :
    hist3 u.SetTabStop = hist3 u := by
  simp only [SetTabStop, h3_withTabStops, apply_ite hist3, ite_self]

theorem h3_ClearTabStop (u : WideCharScreen) (how : Int) :
    hist3 (u.ClearTabStop how) = hist3 u := by
  simp only [ClearTabStop, h3_withTabStops, apply_ite hist3, ite_self]

theorem h3_EraseInLine (u : WideCharScreen) (how : Int) (p : Bool) :
    hist3 (u.EraseInLine how p) = hist3 u := by
  simp only [EraseInLine, h3_withBuffer, apply_ite hist3, ite_self]

theorem h3_NativeEraseInDisplay (u : WideCharScreen) (how : Int) :
    hist3 (u.NativeEraseInDisplay how) = hist3 u := by
  simp only [NativeEraseInDisplay, h3_withBuffer, apply_ite hist3,
    h3_EraseInLine, ite_self]

theorem h3_eraseCharsAux (u : WideCharScreen) (n : Nat) (x : Int) :
    hist3 (eraseCharsAux u n x) = hist3 u := by
  induction n generalizing u x with
  | zero => rfl
  | succ n ih =>
    unfold eraseCharsAux
    split
    · rw [ih, h3_clearCellAt]
    · rfl

theorem h3_EraseCharacters (u : WideCharScreen) (n : Int) :
    hist3 (u.EraseCharacters n) = hist3 u :=
  h3_eraseCharsAux u n.toNat u.cursor.x

theorem h3_SelectGraphicRendition (u : WideCharScreen) (ps : List Int) :
    hist3 (u.SelectGraphicRendition ps) = hist3 u := by
  simp only [SelectGraphicRendition, h3_withCursor, apply_ite hist3, ite_self]

theorem hb_EraseInDisplay {u : WideCharScreen} (hu : HistBound u) (how : Int) :
    HistBound (u.EraseInDisplay how) := by
  simp only [EraseInDisplay]
  have hmid : HistBound (if u.viewingHistory = true then u.HScrollToBottom
      else u) := by
    split
    · exact hb_HScrollToBottom hu
    · exact hu
  generalize (if u.viewingHistory = true then u.HScrollToBottom else u) = w
    at hmid
  have hmid2 := HistBound_of_eq (h3_NativeEraseInDisplay w how) hmid
  split
  · obtain ⟨_, h2, h3⟩ := hmid2
    exact ⟨by simpa using h3, h2, h3⟩
  · exact hmid2

theorem hb_switchToAlternate {u : WideCharScreen} (hu : HistBound u) :
    HistBound u.switchToAlternate := by
  obtain ⟨h1, _, h3⟩ := hu
  exact ⟨by simpa using h3, h1, h3⟩

theorem hb_switchToMain {u : WideCharScreen} (hu : HistBound u) :
    HistBound u.switchToMain := by
  unfold switchToMain
  split
  · exact hu
  · obtain ⟨_, h2, h3⟩ := hu
    exact ⟨h2, h2, h3⟩

theorem hb_foldl {β : Type} {f : WideCharScreen → β → WideCharScreen}
    (hf : ∀ u b, HistBound u → HistBound (f u b)) :
    ∀ (l : List β) (u : WideCharScreen), HistBound u → HistBound (l.foldl f u) := by
  intro l
  induction l with
  | nil => exact fun u hu => hu
  | cons b bs ih => exact fun u hu => ih _ (hf u b hu)

theorem hb_SetMode {u : WideCharScreen} (hu : HistBound u) (modes : List Int)
    (p : Bool) : HistBound (u.SetMode modes p) := by
  simp only [SetMode]
  have h1 : HistBound (if p = true then modes.foldl setModeAltStep u else u) := by
    split
    · refine hb_foldl (fun w m hw => ?_) modes u hu
      simp only [setModeAltStep]
      split
      · split
        · exact hb_switchToAlternate hw
        · exact hw
      · split
        · split <;> exact hw
        · exact hw
    · exact hu
  generalize (if p = true then modes.foldl setModeAltStep u else u) = w at h1
  refine hb_foldl (fun w2 m hw2 => ?_) modes w h1
  simp only [setModeBaseStep]
  split
  · split
    · exact hw2
    · exact hw2
  · split
    · exact hw2
    · exact hw2

theorem hb_ResetMode {u : WideCharScreen} (hu : HistBound u) (modes : List Int)
    (p : Bool) : HistBound (u.ResetMode modes p) := by
  simp only [ResetMode]
  have h1 : HistBound (if p = true then modes.foldl resetModeAltStep u else u) := by
    split
    · refine hb_foldl (fun w m hw => ?_) modes u hu
      simp only [resetModeAltStep]
      split
      · split
        · exact hb_switchToMain hw
        · exact hw
      · split
        · split <;> exact HistBound_of_eq (h3_withCursor _ _) hw
        · exact hw
    · exact hu
  generalize (if p = true then modes.foldl resetModeAltStep u else u) = w at h1
  refine hb_foldl (fun w2 m hw2 => ?_) modes w h1
  simp only [resetModeBaseStep]
  split
  · split
    · exact hw2
    · exact hw2
  · split
    · exact hw2
    · exact hw2

theorem h3_nativeResize (u : WideCharScreen) (c l : Int) :
    hist3 (u.nativeResize c l) = hist3 u := rfl

theorem h3_withColsLines (X : WideCharScreen) (c l : Int) :
    hist3 { X with columns := c, lines := l } = hist3 X := rfl

theorem h3_withBA (X : WideCharScreen) (b : List (List Char))
    (a : List (List Attributes)) :
    hist3 { X with buffer := b, attrs := a } = hist3 X := rfl

theorem h3_withCW2 (X : WideCharScreen) (w w2 : List (List Int)) :
    hist3 { X with cellWidths := w, altCellWidths := w2 } = hist3 X := rfl

theorem h3_withMainCW (X : WideCharScreen) (w : List (List Int)) :
    hist3 { X with mainCellWidths := w } = hist3 X := rfl

theorem h3_withBAC (X : WideCharScreen) (b : List (List Char))
    (a : List (List Attributes)) (w : List (List Int)) :
    hist3 { X with buffer := b, attrs := a, cellWidths := w } = hist3 X := rfl

theorem hb_Resize {u : WideCharScreen} (hu : HistBound u) (c l : Int) :
    HistBound (u.Resize c l) := by
  simp only [Resize]
  split
  · exact hu
  · have h1 : HistBound (u.historyResize c l) := by
      simp only [historyResize]
      split
      · exact hu
      · have hmid : HistBound (if u.viewingHistory = true then
            u.HScrollToBottom else u) := by
          split
          · exact hb_HScrollToBottom hu
          · exact hu
        generalize (if u.viewingHistory = true then u.HScrollToBottom else u) = w
          at hmid ⊢
        have h2 : ∀ (L : List Nat) (v : WideCharScreen), HistBound v →
            HistBound (L.foldl
              (fun v2 (i : Nat) => v2.addToHistory (l + (i : Int))) v) :=
          fun L v hv => hb_foldl (fun v2 i hv2 => hb_addToHistory hv2 _) L v hv
        split
        · exact HistBound_of_eq (h3_nativeResize _ c l) (h2 _ w hmid)
        · exact HistBound_of_eq (h3_nativeResize _ c l) hmid
    refine HistBound_of_eq ?_ h1
    split <;> rfl

end WideCharScreen

namespace WideCharScreen

theorem h3_HScrollUp (u : WideCharScreen) (n : Int) :
    hist3 (u.HScrollUp n) = hist3 u := by
  simp only [HScrollUp]
  split_ifs <;> first | rfl | exact h3_renderHistoryView _

theorem h3_HScrollDown (u : WideCharScreen) (n : Int) :
    hist3 (u.HScrollDown n) = hist3 u := by
  simp only [HScrollDown]
  split_ifs <;>
    first
      | rfl
      | exact (h3_withViewing _ _).trans (h3_restoreCurrentScreen _)
      | exact h3_renderHistoryView _

theorem h3_HScrollToBottom (u : WideCharScreen) :
    hist3 u.HScrollToBottom = hist3 u := by
  simp only [HScrollToBottom]
  split
  · exact (h3_withViewing _ _).trans (h3_restoreCurrentScreen _)
  · rfl

theorem h3_ScrollUp (u : WideCharScreen) (n : Int) :
    hist3 (u.ScrollUp n) = hist3 u := by
  simp only [ScrollUp]
  split
  · rfl
  · exact h3_HScrollUp u n

theorem h3_ScrollDown (u : WideCharScreen) (n : Int) :
    hist3 (u.ScrollDown n) = hist3 u := by
  simp only [ScrollDown]
  split
  · rfl
  · exact h3_HScrollDown u n

theorem h3_ScrollToBottom (u : WideCharScreen) :
    hist3 u.ScrollToBottom = hist3 u := by
  simp only [ScrollToBottom]
  split
  · rfl
  · exact h3_HScrollToBottom u

theorem hb_Reset {u : WideCharScreen} (hu : HistBound u) :
    HistBound u.Reset := by
  simp only [Reset]
  have h1 : HistBound (if u.usingAlternate = true then u.switchToMain else u) := by
    split
    · exact hb_switchToMain hu
    · exact hu
  generalize (if u.usingAlternate = true then u.switchToMain else u) = w at h1
  obtain ⟨_, h2, h3⟩ := h1
  exact ⟨by simpa using h3, h2, h3⟩

theorem hb_applyOp {u : WideCharScreen} (hu : HistBound u) (op : Op) :
    HistBound (applyOp u op) := by
  cases op with
  | draw t => exact hb_Draw hu t
  | linefeed => exact hb_Linefeed hu
  | index => exact hb_Index hu
  | reverseIndex => exact HistBound_of_eq (h3_ReverseIndex u) hu
  | carriageReturn => exact HistBound_of_eq (h3_CarriageReturn u) hu
  | backspace => exact HistBound_of_eq (h3_Backspace u) hu
  | tab => exact HistBound_of_eq (h3_Tab u) hu
  | cursorUp n => exact HistBound_of_eq (h3_CursorUp u n) hu
  | cursorDown n => exact HistBound_of_eq (h3_CursorDown u n) hu
  | cursorForward n => exact HistBound_of_eq (h3_CursorForward u n) hu
  | cursorBack n => exact HistBound_of_eq (h3_CursorBack u n) hu
  | cursorPosition l c => exact HistBound_of_eq (h3_CursorPosition u l c) hu
  | saveCursor => exact HistBound_of_eq (h3_SaveCursor u) hu
  | restoreCursor => exact HistBound_of_eq (h3_RestoreCursor u) hu
  | setTabStop => exact HistBound_of_eq (h3_SetTabStop u) hu
  | clearTabStop how => exact HistBound_of_eq (h3_ClearTabStop u how) hu
  | eraseCharacters n => exact HistBound_of_eq (h3_EraseCharacters u n) hu
  | eraseInLine how => exact HistBound_of_eq (h3_EraseInLine u how false) hu
  | eraseInDisplay how => exact hb_EraseInDisplay hu how
  | selectGraphicRendition ps =>
    exact HistBound_of_eq (h3_SelectGraphicRendition u ps) hu
  | setMode m p => exact hb_SetMode hu m p
  | resetMode m p => exact hb_ResetMode hu m p
  | scrollUpView n => exact HistBound_of_eq (h3_ScrollUp u n) hu
  | scrollDownView n => exact HistBound_of_eq (h3_ScrollDown u n) hu
  | scrollToBottom => exact HistBound_of_eq (h3_ScrollToBottom u) hu
  | resize c l => exact hb_Resize hu c l
  | reset => exact hb_Reset hu

theorem hb_applyOps {u : WideCharScreen} (hu : HistBound u) (ops : List Op) :
    HistBound (applyOps u ops) := by
  unfold applyOps
  induction ops generalizing u with
  | nil => exact hu
  | cons op rest ih => exact ih (hb_applyOp hu op)

theorem hb_new {c l m : Int} (hm : 0 ≤ m) : HistBound (NewWideCharScreen c l m) :=
  ⟨by simpa using hm, by simpa using hm, hm⟩

theorem addToHistory_zero {s : WideCharScreen} (hl : 0 < s.lines) :
    s.addToHistory 0 =
      { s with history := pushHistory s.maxHistory s.history (snapshotRow s 0) } := by
  unfold addToHistory
  rw [if_pos ⟨le_refl 0, hl⟩]

end WideCharScreen

namespace WideCharScreen

theorem history_withCursor (X : WideCharScreen) (c : Cursor) :
    ({ X with cursor := c } : WideCharScreen).history = X.history := rfl

theorem history_scrollUpInternal (X : WideCharScreen) :
    X.scrollUpInternal.history = X.history := rfl

theorem history_drawCharPlace (X : WideCharScreen) (ch : Char) (w : Int) :
    (drawCharPlace X ch w).history = X.history :=
  congrArg (fun p => p.1) (h3_drawCharPlace X ch w)

/-- On the main buffer at the bottom row, `Linefeed` pushes the snapshot of
the then-current top row into history (with eviction) before shifting. -/
theorem linefeed_captures {s : WideCharScreen}
    (halt : s.usingAlternate = false) (hbot : s.cursor.y = s.lines - 1)
    (hl : 0 < s.lines) :
    s.Linefeed.history =
      pushHistory s.maxHistory s.history (snapshotRow s 0) ∧
    s.Linefeed.buffer = listSet (goShiftUp s.buffer) (s.lines - 1)
      (List.replicate s.columns.toNat spaceChar) := by
  have key : s.Linefeed =
      (if (s.addToHistory 0).scrollUpInternal.newlineMode then
        { (s.addToHistory 0).scrollUpInternal with
          cursor := { (s.addToHistory 0).scrollUpInternal.cursor with x := 0 } }
        else (s.addToHistory 0).scrollUpInternal) := by
    simp only [Linefeed, halt, Bool.false_eq_true, if_false, hbot, if_pos]
  have h2 : (s.addToHistory 0).scrollUpInternal.history =
      pushHistory s.maxHistory s.history (snapshotRow s 0) := by
    rw [history_scrollUpInternal, addToHistory_zero hl]
  have h3 : (s.addToHistory 0).scrollUpInternal.buffer =
      listSet (goShiftUp s.buffer) (s.lines - 1)
        (List.replicate s.columns.toNat spaceChar) := by
    rw [addToHistory_zero hl]
    rfl
  constructor
  · rw [key]
    split
    · rw [history_withCursor]
      exact h2
    · exact h2
  · rw [key]
    split
    · exact h3
    · exact h3

end WideCharScreen

namespace WideCharScreen

/-- `Index` at the bottom row on the main buffer: same capture as `Linefeed`. -/
theorem index_captures {s : WideCharScreen}
    (halt : s.usingAlternate = false) (hbot : s.cursor.y = s.lines - 1)
    (hl : 0 < s.lines) :
    s.Index.history = pushHistory s.maxHistory s.history (snapshotRow s 0) ∧
    s.Index.buffer = listSet (goShiftUp s.buffer) (s.lines - 1)
      (List.replicate s.columns.toNat spaceChar) := by
  have key : s.Index = (s.addToHistory 0).scrollUpInternal := by
    simp only [Index, halt, Bool.false_eq_true, if_false, hbot, if_pos]
  rw [key, history_scrollUpInternal, addToHistory_zero hl]
  exact ⟨rfl, rfl⟩

theorem history_addToHistory_zero (X : WideCharScreen) (h : 0 < X.lines) :
    (X.addToHistory 0).history =
      pushHistory X.maxHistory X.history (snapshotRow X 0) := by
  rw [addToHistory_zero h]

/-- An autowrap-induced advance during `drawChar` from the bottom row on the
main buffer captures the top row into history before the shift. -/
theorem drawChar_captures {s : WideCharScreen} (ch : Char)
    (halt : s.usingAlternate = false) (hbot : s.cursor.y = s.lines - 1)
    (hl : 0 < s.lines) (haw : s.autoWrap = true)
    (hw0 : ¬runeWidth ch = 0) (hover : s.cursor.x + runeWidth ch > s.columns) :
    (s.drawChar ch).history =
      pushHistory s.maxHistory s.history (snapshotRow s 0) := by
  simp only [drawChar, hw0, if_false, hover, if_true, haw,
    halt, Bool.false_eq_true]
  rw [if_pos (by omega : s.cursor.y + 1 ≥ s.lines)]
  rw [history_drawCharPlace, history_withCursor, history_scrollUpInternal]
  exact history_addToHistory_zero _ hl

end WideCharScreen

/-- C3: on the main buffer, `Linefeed`, `Index`, and an autowrap-induced
advance during a draw at the bottom row append a snapshot of the then-current
top row (characters and attributes) to the history — with the oldest line
evicted past `maxHistory` (`pushHistory`) — before the rows shift up; and
after any sequence of operations on a screen built with `maxHistory ≥ 0`, the
history holds at most `maxHistory` lines. -/
theorem C3_thm :
    (∀ (s : WideCharScreen) (ch : Char),
      s.usingAlternate = false → s.cursor.y = s.lines - 1 → 0 < s.lines →
        (s.Linefeed.history =
            pushHistory s.maxHistory s.history (snapshotRow s 0) ∧
          s.Linefeed.buffer = listSet (goShiftUp s.buffer) (s.lines - 1)
            (List.replicate s.columns.toNat spaceChar)) ∧
        (s.Index.history =
            pushHistory s.maxHistory s.history (snapshotRow s 0) ∧
          s.Index.buffer = listSet (goShiftUp s.buffer) (s.lines - 1)
            (List.replicate s.columns.toNat spaceChar)) ∧
        (s.autoWrap = true → ¬runeWidth ch = 0 →
          s.cursor.x + runeWidth ch > s.columns →
          (s.drawChar ch).history =
            pushHistory s.maxHistory s.history (snapshotRow s 0))) ∧
    (∀ (ops : List Op) (c l m : Int), 0 ≤ m →
      ((applyOps (NewWideCharScreen c l m) ops).history.length : Int) ≤
        (applyOps (NewWideCharScreen c l m) ops).maxHistory) := by
  constructor
  · intro s ch halt hbot hl
    exact ⟨linefeed_captures halt hbot hl, index_captures halt hbot hl,
      fun haw hw0 hover => drawChar_captures ch halt hbot hl haw hw0 hover⟩
  · intro ops c l m hm
    exact (hb_applyOps (hb_new hm) ops).1

/-- Witness for C3 on a 1×1 screen whose cursor sits past the only column. -/
theorem C3_witness :
    ((applyOps (NewWideCharScreen 1 1 3) [Op.draw ['a']]).Linefeed.history =
      pushHistory (applyOps (NewWideCharScreen 1 1 3) [Op.draw ['a']]).maxHistory
        (applyOps (NewWideCharScreen 1 1 3) [Op.draw ['a']]).history
        (snapshotRow (applyOps (NewWideCharScreen 1 1 3) [Op.draw ['a']]) 0)) ∧
    ((applyOps (NewWideCharScreen 1 1 3) [Op.draw ['a']]).drawChar 'b').history =
      pushHistory (applyOps (NewWideCharScreen 1 1 3) [Op.draw ['a']]).maxHistory
        (applyOps (NewWideCharScreen 1 1 3) [Op.draw ['a']]).history
        (snapshotRow (applyOps (NewWideCharScreen 1 1 3) [Op.draw ['a']]) 0) ∧
    ((applyOps (NewWideCharScreen 1 1 3)
        [Op.draw ['a'], Op.linefeed]).history.length : Int) ≤
      (applyOps (NewWideCharScreen 1 1 3)
        [Op.draw ['a'], Op.linefeed]).maxHistory :=
  ⟨((C3_thm.1 (applyOps (NewWideCharScreen 1 1 3) [Op.draw ['a']]) 'b'
      (by decide) (by decide) (by decide)).1).1,
    ((C3_thm.1 (applyOps (NewWideCharScreen 1 1 3) [Op.draw ['a']]) 'b'
      (by decide) (by decide) (by decide)).2.2 (by decide) (by decide)
      (by decide)),
    C3_thm.2 [Op.draw ['a'], Op.linefeed] 1 1 3 (by decide)⟩

/-! ## Cursor bounds after Draw (claim C1) -/

namespace NativeScreen

theorem drawStep_bounds (s : NativeScreen) (ch : Char)
    (hc : 1 ≤ s.columns) (hl : 1 ≤ s.lines)
    (hb : CursorBounds s.cursor s.columns s.lines) :
    (s.drawStep ch).columns = s.columns ∧ (s.drawStep ch).lines = s.lines ∧
    CursorBounds (s.drawStep ch).cursor s.columns s.lines := by
  obtain ⟨h1, h2, h3, h4⟩ := hb
  refine ⟨?_, ?_, ?_⟩
  · simp only [drawStep, scrollUp, apply_ite NativeScreen.columns, ite_self]
  · simp only [drawStep, scrollUp, apply_ite NativeScreen.lines, ite_self]
  · simp only [drawStep, scrollUp, CursorBounds, apply_ite NativeScreen.cursor,
      apply_ite Cursor.x, apply_ite Cursor.y]
    split_ifs <;> omega

theorem nsDraw_bounds : ∀ (text : List Char) (s : NativeScreen),
    1 ≤ s.columns → 1 ≤ s.lines → CursorBounds s.cursor s.columns s.lines →
    (s.Draw text).columns = s.columns ∧ (s.Draw text).lines = s.lines ∧
    CursorBounds (s.Draw text).cursor s.columns s.lines := by
  intro text
  induction text with
  | nil => intro s hc hl hb; exact ⟨rfl, rfl, hb⟩
  | cons ch rest ih =>
    intro s hc hl hb
    obtain ⟨e1, e2, hb1⟩ := drawStep_bounds s ch hc hl hb
    have hb2 : CursorBounds (s.drawStep ch).cursor (s.drawStep ch).columns
        (s.drawStep ch).lines := by rw [e1, e2]; exact hb1
    obtain ⟨f1, f2, f3⟩ := ih (s.drawStep ch) (by rw [e1]; exact hc)
      (by rw [e2]; exact hl) hb2
    rw [e1] at f1
    rw [e2] at f2
    rw [e1, e2] at f3
    exact ⟨f1, f2, f3⟩

end NativeScreen

namespace WideCharScreen

theorem cg_clearHere (u : WideCharScreen) (y x : Int) :
    curGeom (clearHere u y x) = curGeom u := by
  simp only [clearHere]
  split <;> rfl

theorem cg_clearCellAtN (u : WideCharScreen) (y : Int) (n : Nat) :
    curGeom (clearCellAtN u y n) = curGeom u := by
  induction n generalizing u with
  | zero =>
    unfold clearCellAtN
    split
    · rfl
    · exact cg_clearHere u _ _
  | succ n ih =>
    unfold clearCellAtN
    split
    · rfl
    · split
      · exact ih u
      · exact cg_clearHere u _ _

theorem cg_clearCellAt (u : WideCharScreen) (y x : Int) :
    curGeom (u.clearCellAt y x) = curGeom u :=
  cg_clearCellAtN u y x.toNat

theorem curGeom_drawCharPlace (u : WideCharScreen) (ch : Char) (w : Int) :
    curGeom (drawCharPlace u ch w) =
      ((if u.cursor.y < u.lines ∧ u.cursor.x < u.columns
          then { u.cursor with x := u.cursor.x + w } else u.cursor),
        u.columns, u.lines) := by
  have h := cg_clearCellAt u u.cursor.y u.cursor.x
  have e1 : (u.clearCellAt u.cursor.y u.cursor.x).cursor = u.cursor :=
    congrArg (fun t => t.1) h
  have e2 : (u.clearCellAt u.cursor.y u.cursor.x).columns = u.columns :=
    congrArg (fun t => t.2.1) h
  have e3 : (u.clearCellAt u.cursor.y u.cursor.x).lines = u.lines :=
    congrArg (fun t => t.2.2) h
  simp only [drawCharPlace]
  split_ifs with hp hw2 <;> simp only [curGeom, e1, e2, e3]

theorem cursor_drawCharPlace (u : WideCharScreen) (ch : Char) (w : Int) :
    (drawCharPlace u ch w).cursor =
      if u.cursor.y < u.lines ∧ u.cursor.x < u.columns
        then { u.cursor with x := u.cursor.x + w } else u.cursor :=
  congrArg (fun t => t.1) (curGeom_drawCharPlace u ch w)

theorem columns_drawCharPlace (u : WideCharScreen) (ch : Char) (w : Int) :
    (drawCharPlace u ch w).columns = u.columns :=
  congrArg (fun t => t.2.1) (curGeom_drawCharPlace u ch w)

theorem lines_drawCharPlace (u : WideCharScreen) (ch : Char) (w : Int) :
    (drawCharPlace u ch w).lines = u.lines :=
  congrArg (fun t => t.2.2) (curGeom_drawCharPlace u ch w)

end WideCharScreen

namespace WideCharScreen

theorem cg_histScroll (u : WideCharScreen) :
    curGeom ((u.addToHistory 0).scrollUpInternal) = curGeom u := by
  simp only [addToHistory]
  split <;> rfl

theorem drawChar_bounds (u : WideCharScreen) (ch : Char)
    (hc : 2 ≤ u.columns) (hl : 1 ≤ u.lines)
    (hb : CursorBounds u.cursor u.columns u.lines) :
    (u.drawChar ch).columns = u.columns ∧ (u.drawChar ch).lines = u.lines ∧
    CursorBounds (u.drawChar ch).cursor u.columns u.lines := by
  obtain ⟨h1, h2, h3, h4⟩ := hb
  have hwb : 0 ≤ runeWidth ch ∧ runeWidth ch ≤ 2 := by
    rcases runeWidth_mem ch with h | h | h <;> omega
  simp only [drawChar]
  split
  · exact ⟨rfl, rfl, h1, h2, h3, h4⟩
  · split
    · -- the character does not fit at the current column
      split
      · -- autowrap: wrap, possibly scroll, then place
        split
        · -- wrapping moved the cursor past the last line: scroll
          split
          · -- alternate screen scroll
            refine ⟨?_, ?_, ?_⟩
            · rw [columns_drawCharPlace]
              simp only [scrollUpNoHistory]
            · rw [lines_drawCharPlace]
              simp only [scrollUpNoHistory]
            · rw [cursor_drawCharPlace]
              simp only [scrollUpNoHistory]
              split_ifs with hp
              · refine ⟨?_, ?_, ?_, ?_⟩ <;> simp only [] <;> omega
              · refine ⟨?_, ?_, ?_, ?_⟩ <;> simp only [] <;> omega
          · -- main screen scroll (with history capture)
            refine ⟨?_, ?_, ?_⟩
            · rw [columns_drawCharPlace]
              simp only [addToHistory, scrollUpInternal,
                apply_ite WideCharScreen.columns, ite_self]
            · rw [lines_drawCharPlace]
              simp only [addToHistory, scrollUpInternal,
                apply_ite WideCharScreen.lines, ite_self]
            · rw [cursor_drawCharPlace]
              simp only [addToHistory, scrollUpInternal,
                apply_ite WideCharScreen.cursor, apply_ite WideCharScreen.columns,
                apply_ite WideCharScreen.lines, apply_ite Cursor.x,
                apply_ite Cursor.y, ite_self]
              split_ifs with hp
              · refine ⟨?_, ?_, ?_, ?_⟩ <;> simp only [] <;> omega
              · refine ⟨?_, ?_, ?_, ?_⟩ <;> simp only [] <;> omega
        · -- the wrapped cursor stays on screen
          rename_i hov
          refine ⟨?_, ?_, ?_⟩
          · rw [columns_drawCharPlace]
          · rw [lines_drawCharPlace]
          · rw [cursor_drawCharPlace]
            split_ifs with hp
            · refine ⟨?_, ?_, ?_, ?_⟩ <;> simp only [] <;> omega
            · refine ⟨?_, ?_, ?_, ?_⟩ <;> simp only [] <;> omega
      · -- autowrap off: the character is discarded
        exact ⟨rfl, rfl, h1, h2, h3, h4⟩
    · -- the character fits: in-place write
      rename_i hsp
      refine ⟨?_, ?_, ?_⟩
      · rw [columns_drawCharPlace]
      · rw [lines_drawCharPlace]
      · rw [cursor_drawCharPlace]
        split_ifs with hp
        · refine ⟨?_, ?_, ?_, ?_⟩ <;> simp only [] <;> omega
        · exact ⟨h1, h2, h3, h4⟩

end WideCharScreen

namespace WideCharScreen

theorem wcsFold_bounds : ∀ (text : List Char) (u : WideCharScreen),
    2 ≤ u.columns → 1 ≤ u.lines → CursorBounds u.cursor u.columns u.lines →
    (text.foldl drawChar u).columns = u.columns ∧
    (text.foldl drawChar u).lines = u.lines ∧
    CursorBounds (text.foldl drawChar u).cursor u.columns u.lines := by
  intro text
  induction text with
  | nil => intro u hc hl hb; exact ⟨rfl, rfl, hb⟩
  | cons ch rest ih =>
    intro u hc hl hb
    obtain ⟨e1, e2, hb1⟩ := drawChar_bounds u ch hc hl hb
    have hb2 : CursorBounds (u.drawChar ch).cursor (u.drawChar ch).columns
        (u.drawChar ch).lines := by rw [e1, e2]; exact hb1
    obtain ⟨f1, f2, f3⟩ := ih (u.drawChar ch) (by rw [e1]; exact hc)
      (by rw [e2]; exact hl) hb2
    rw [e1] at f1
    rw [e2] at f2
    rw [e1, e2] at f3
    simp only [List.foldl_cons]
    exact ⟨f1, f2, f3⟩

theorem ScrollToBottom_bounds (u : WideCharScreen)
    (hb : CursorBounds u.cursor u.columns u.lines)
    (hs : CursorBounds u.savedCursor u.columns u.lines) :
    u.ScrollToBottom.columns = u.columns ∧ u.ScrollToBottom.lines = u.lines ∧
    CursorBounds u.ScrollToBottom.cursor u.columns u.lines := by
  obtain ⟨a1, a2, a3, a4⟩ := hb
  obtain ⟨b1, b2, b3, b4⟩ := hs
  simp only [ScrollToBottom, HScrollToBottom, restoreCurrentScreen]
  split_ifs with hu hv
  · exact ⟨rfl, rfl, a1, a2, a3, a4⟩
  · split
    · exact ⟨rfl, rfl, b1, b2, b3, b4⟩
    · exact ⟨rfl, rfl, a1, a2, a3, a4⟩
  · exact ⟨rfl, rfl, a1, a2, a3, a4⟩

end WideCharScreen

/-- C1, amended: at rest the cursor satisfies `0 ≤ cursor.x ≤ columns` and
`0 ≤ cursor.y ≤ lines - 1`: after a `Draw` the reported column may equal
`columns` (one past the last cell, where the base layer parks the cursor
after writing the last column), so the claimed bound `cursor.x ≤ columns - 1`
is weakened to `cursor.x ≤ columns`.  This holds on the base layer
(`NativeScreen.Draw`, any geometry with at least one column and line) and on
the wide-character layer (`WideCharScreen.Draw`, geometry of at least two
columns so that a wide rune fits after wrapping, with the saved cursor also
in bounds for the history-view restore that `Draw` may perform). -/
theorem C1_corrected_thm :
    (∀ (s : NativeScreen) (text : List Char),
      1 ≤ s.columns → 1 ≤ s.lines →
      CursorBounds s.cursor s.columns s.lines →
      CursorBounds (s.Draw text).cursor s.columns s.lines) ∧
    (∀ (s : WideCharScreen) (text : List Char),
      2 ≤ s.columns → 1 ≤ s.lines →
      CursorBounds s.cursor s.columns s.lines →
      CursorBounds s.savedCursor s.columns s.lines →
      CursorBounds (s.Draw text).cursor s.columns s.lines) := by
  constructor
  · intro s text hc hl hb
    exact (NativeScreen.nsDraw_bounds text s hc hl hb).2.2
  · intro s text hc hl hb hsv
    simp only [Draw]
    split_ifs with h
    · obtain ⟨e1, e2, hb1⟩ := ScrollToBottom_bounds s hb hsv
      have hb2 : CursorBounds s.ScrollToBottom.cursor s.ScrollToBottom.columns
          s.ScrollToBottom.lines := by rw [e1, e2]; exact hb1
      obtain ⟨f1, f2, f3⟩ := wcsFold_bounds text s.ScrollToBottom
        (by rw [e1]; exact hc) (by rw [e2]; exact hl) hb2
      rw [e1, e2] at f3
      exact f3
    · exact (wcsFold_bounds text s hc hl hb).2.2

/-- Witness for C1: a base screen that fills its single column and a wide
screen that wraps a wide rune both end with the cursor inside the amended
bounds. -/
theorem C1_witness :
    CursorBounds ((NativeScreen.NewNativeScreen 1 1).Draw ['A', 'B']).cursor
      1 1 ∧
    CursorBounds ((NewWideCharScreen 2 1 5).Draw ['a', '世', 'b']).cursor
      2 1 := by
  constructor
  · exact C1_corrected_thm.1 (NativeScreen.NewNativeScreen 1 1) ['A', 'B']
      (by decide) (by decide) ⟨by decide, by decide, by decide, by decide⟩
  · exact C1_corrected_thm.2 (NewWideCharScreen 2 1 5) ['a', '世', 'b']
      (by decide) (by decide) ⟨by decide, by decide, by decide, by decide⟩
      ⟨by decide, by decide, by decide, by decide⟩

/-! ## Indexed-write lemmas (claims C7 and C9) -/

theorem getD_set_self (l : List α) (n : Nat) (a d : α) (h : n < l.length) :
    (l.set n a).getD n d = a := by
  induction l generalizing n with
  | nil => exact absurd h (Nat.not_lt_zero n)
  | cons b t ih =>
    cases n with
    | zero => rfl
    | succ n => exact ih n (by simpa using h)

theorem getD_modifyAt_self (l : List α) (n : Nat) (f : α → α) (d : α)
    (h : n < l.length) : (modifyAt l n f).getD n d = f (l.getD n d) := by
  induction l generalizing n with
  | nil => exact absurd h (Nat.not_lt_zero n)
  | cons b t ih =>
    cases n with
    | zero => rfl
    | succ n => exact ih n (by simpa using h)

theorem getCell_setCell_self (g : List (List α)) (y x : Int) (a d : α)
    (hy : 0 ≤ y) (hyl : y.toNat < g.length) (hx : 0 ≤ x)
    (hxl : x.toNat < (g.getD y.toNat []).length) :
    getCell (setCell g y x a) y x d = a := by
  simp only [setCell, getCell, getI, if_pos hy, if_pos hx,
    if_pos (And.intro hy hx)]
  rw [getD_modifyAt_self _ _ _ _ hyl]
  exact getD_set_self _ _ _ _ hxl

theorem getD_mapIdxFrom (f : Nat → α → α) :
    ∀ (l : List α) (i n : Nat) (d : α), n < l.length →
    (mapIdxFrom f i l).getD n d = f (i + n) (l.getD n d) := by
  intro l
  induction l with
  | nil => intro i n d h; exact absurd h (Nat.not_lt_zero n)
  | cons a t ih =>
    intro i n d h
    cases n with
    | zero => simp [mapIdxFrom]
    | succ n =>
      simp only [mapIdxFrom, List.getD_cons_succ]
      rw [ih (i + 1) n d (by simpa using h)]
      have e : i + 1 + n = i + (n + 1) := by omega
      rw [e]

theorem getCell_clearCells (g : List (List Char)) (c : Char)
    (p : Int → Int → Bool) (y x : Int) (d : Char)
    (hy : 0 ≤ y) (hyl : y.toNat < g.length) (hx : 0 ≤ x)
    (hxl : x.toNat < (g.getD y.toNat []).length)
    (hp : p y x = true) :
    getCell (clearCells g c p) y x d = c := by
  simp only [clearCells, mapRowIdx, getCell, getI, if_pos hy, if_pos hx]
  rw [getD_mapIdxFrom _ _ _ _ _ hyl]
  rw [getD_mapIdxFrom _ _ _ _ _ hxl]
  have ey : ((0 + y.toNat : Nat) : Int) = y := by omega
  have ex : ((0 + x.toNat : Nat) : Int) = x := by omega
  rw [ey, ex, hp]
  rfl

theorem getD_mem (g : List (List α)) (n : Nat) (h : n < g.length) :
    g.getD n [] ∈ g := by
  rw [List.getD_eq_getElem _ _ h]
  exact List.getElem_mem _

namespace NativeScreen

/-- With autowrap off and the cursor at or past the right edge, the base
layer clamps the cursor to the last column and overwrites it. -/
theorem nsClamp_write (s : NativeScreen) (ch : Char)
    (haw : s.autoWrap = false) (hx : s.columns ≤ s.cursor.x)
    (hy0 : 0 ≤ s.cursor.y) (hyl : s.cursor.y < s.lines) (hc : 1 ≤ s.columns)
    (hg : GridGeom s.buffer s.lines.toNat s.columns.toNat) :
    getCell (s.Draw [ch]).buffer s.cursor.y (s.columns - 1) nulChar = ch ∧
    (s.Draw [ch]).cursor.x = s.columns := by
  have hblen : s.buffer.length = s.lines.toNat := hg.1
  have hyn : s.cursor.y.toNat < s.buffer.length := by rw [hblen]; omega
  have hrl : (s.buffer.getD s.cursor.y.toNat []).length = s.columns.toNat :=
    hg.2 _ (getD_mem s.buffer s.cursor.y.toNat hyn)
  simp only [Draw, List.foldl_cons, List.foldl_nil, drawStep, haw,
    Bool.false_eq_true, if_false]
  rw [if_pos hx]
  split_ifs with hgd
  · constructor
    · exact getCell_setCell_self s.buffer s.cursor.y (s.columns - 1) ch nulChar
        hy0 hyn (by omega) (by rw [hrl]; omega)
    · show s.columns - 1 + 1 = s.columns
      omega
  · exfalso
    apply hgd
    constructor
    · show s.cursor.y < s.lines
      omega
    · show s.columns - 1 < s.columns
      omega

end NativeScreen

namespace WideCharScreen

/-- With autowrap off, the wide layer drops a nonzero-width character that
does not fit: the whole state is unchanged. -/
theorem wideDrop (s : WideCharScreen) (ch : Char)
    (haw : s.autoWrap = false) (hw : runeWidth ch ≠ 0)
    (hsp : s.columns < s.cursor.x + runeWidth ch) :
    s.drawChar ch = s := by
  simp only [drawChar, haw, Bool.false_eq_true, if_false]
  rw [if_neg hw, if_pos hsp]

end WideCharScreen

/-- C9, corrected: the overwrite-at-the-last-column behaviour holds only on
the base layer.  With autowrap off, `NativeScreen.Draw` clamps a
past-the-edge cursor to column `columns - 1` and writes the character there,
leaving the cursor at `columns`; but the wide-character layer instead
discards outright any nonzero-width character that does not fit
(`drawChar` returns the state unchanged), so the claimed behaviour fails on
that layer. -/
theorem C9_corrected_thm :
    (∀ (s : NativeScreen) (ch : Char),
      s.autoWrap = false → s.columns ≤ s.cursor.x →
      0 ≤ s.cursor.y → s.cursor.y < s.lines → 1 ≤ s.columns →
      GridGeom s.buffer s.lines.toNat s.columns.toNat →
      getCell (s.Draw [ch]).buffer s.cursor.y (s.columns - 1) nulChar = ch ∧
      (s.Draw [ch]).cursor.x = s.columns) ∧
    (∀ (s : WideCharScreen) (ch : Char),
      s.autoWrap = false → runeWidth ch ≠ 0 →
      s.columns < s.cursor.x + runeWidth ch →
      s.drawChar ch = s) :=
  ⟨fun s ch haw hx hy0 hyl hc hg =>
      NativeScreen.nsClamp_write s ch haw hx hy0 hyl hc hg,
    fun s ch haw hw hsp => wideDrop s ch haw hw hsp⟩

/-- Witness for C9: a 2×1 base screen with the cursor parked past the edge
overwrites its last column, and a 1×1 wide screen drops a wide rune. -/
theorem C9_witness :
    getCell (({ NativeScreen.NewNativeScreen 2 1 with
        autoWrap := false
        cursor := { x := 2 } } : NativeScreen).Draw ['c']).buffer 0 1
      nulChar = 'c' ∧
    ({ NewWideCharScreen 1 1 0 with
        autoWrap := false } : WideCharScreen).drawChar '世' =
      { NewWideCharScreen 1 1 0 with autoWrap := false } := by
  constructor
  · exact (C9_corrected_thm.1
      { NativeScreen.NewNativeScreen 2 1 with
        autoWrap := false
        cursor := { x := 2 } }
      'c' rfl (by decide) (by decide) (by decide) (by decide)
      ⟨by decide, by decide⟩).1
  · exact C9_corrected_thm.2
      { NewWideCharScreen 1 1 0 with autoWrap := false }
      '世' rfl (by decide) (by decide)

namespace WideCharScreen

/-- Shape of a full-screen erase from the live view: blank the visible
buffer, keep the attribute grid, and empty the history. -/
theorem eid23_core (s : WideCharScreen) (how : Int)
    (hv : s.viewingHistory = false) (h0 : how ≠ 0) (h1 : how ≠ 1)
    (h23 : how = 2 ∨ how = 3) :
    s.EraseInDisplay how =
      { s with
        buffer := clearCells s.buffer spaceChar
          (fun y x => decide (y < s.lines ∧ x < s.columns))
        history := []
        historyPos := 0 } := by
  simp only [EraseInDisplay, hv, Bool.false_eq_true, if_false,
    NativeEraseInDisplay]
  rw [if_neg h0, if_neg h1, if_pos h23, if_pos h23]

end WideCharScreen

set_option maxHeartbeats 1600000 in
/-- C7, corrected: `EraseInDisplay(how)` with `how` in `{2, 3}` blanks every
visible buffer cell to a space but leaves the attribute grid untouched (the
erase writes the character buffer only, not `space + default attributes`);
and the history is emptied — `GetHistorySize()` returns 0 — for `how = 2`
just as for `how = 3`, not only for `how = 3`. -/
theorem C7_corrected_thm (s : WideCharScreen) (how : Int)
    (hv : s.viewingHistory = false) (hh : how = 2 ∨ how = 3)
    (hg : GridGeom s.buffer s.lines.toNat s.columns.toNat) :
    (∀ y x : Int, 0 ≤ y → y < s.lines → 0 ≤ x → x < s.columns →
      getCell (s.EraseInDisplay how).buffer y x nulChar = spaceChar) ∧
    (s.EraseInDisplay how).attrs = s.attrs ∧
    (s.EraseInDisplay how).history = [] ∧
    (s.EraseInDisplay how).GetHistorySize = 0 := by
  have h0 : how ≠ 0 := by rcases hh with rfl | rfl <;> omega
  have h1 : how ≠ 1 := by rcases hh with rfl | rfl <;> omega
  have key := eid23_core s how hv h0 h1 hh
  refine ⟨?_, ?_, ?_, ?_⟩
  · intro y x hy0 hyl hx0 hxl
    rw [key]
    have hyn : y.toNat < s.buffer.length := by rw [hg.1]; omega
    have hrl : (s.buffer.getD y.toNat []).length = s.columns.toNat :=
      hg.2 _ (getD_mem s.buffer y.toNat hyn)
    exact getCell_clearCells s.buffer spaceChar
      (fun y x => decide (y < s.lines ∧ x < s.columns)) y x nulChar hy0 hyn
      hx0 (by rw [hrl]; omega) (decide_eq_true (And.intro hyl hxl))
  · rw [key]
  · rw [key]
  · rw [key]
    rfl

/-- Witness for C7 on a 2×1 screen that drew an `A`: `EraseInDisplay(2)`
blanks the cells, keeps the attribute grid, and empties the history. -/
theorem C7_witness :
    getCell ((applyOps (NewWideCharScreen 2 1 3)
        [Op.draw ['A']]).EraseInDisplay 2).buffer 0 0 nulChar = spaceChar ∧
    getCell ((applyOps (NewWideCharScreen 2 1 3)
        [Op.draw ['A']]).EraseInDisplay 2).buffer 0 1 nulChar = spaceChar ∧
    ((applyOps (NewWideCharScreen 2 1 3)
        [Op.draw ['A']]).EraseInDisplay 2).attrs =
      (applyOps (NewWideCharScreen 2 1 3) [Op.draw ['A']]).attrs ∧
    ((applyOps (NewWideCharScreen 2 1 3)
        [Op.draw ['A']]).EraseInDisplay 2).history = [] ∧
    ((applyOps (NewWideCharScreen 2 1 3)
        [Op.draw ['A']]).EraseInDisplay 2).GetHistorySize = 0 :=
  ⟨(C7_corrected_thm (applyOps (NewWideCharScreen 2 1 3) [Op.draw ['A']]) 2
      (by decide) (Or.inl rfl) ⟨by decide, by decide⟩).1 0 0
      (by decide) (by decide) (by decide) (by decide),
    (C7_corrected_thm (applyOps (NewWideCharScreen 2 1 3) [Op.draw ['A']]) 2
      (by decide) (Or.inl rfl) ⟨by decide, by decide⟩).1 0 1
      (by decide) (by decide) (by decide) (by decide),
    (C7_corrected_thm (applyOps (NewWideCharScreen 2 1 3) [Op.draw ['A']]) 2
      (by decide) (Or.inl rfl) ⟨by decide, by decide⟩).2.1,
    (C7_corrected_thm (applyOps (NewWideCharScreen 2 1 3) [Op.draw ['A']]) 2
      (by decide) (Or.inl rfl) ⟨by decide, by decide⟩).2.2.1,
    (C7_corrected_thm (applyOps (NewWideCharScreen 2 1 3) [Op.draw ['A']]) 2
      (by decide) (Or.inl rfl) ⟨by decide, by decide⟩).2.2.2⟩
